import Mathlib

/-!
# svc-lb-sync: the service reconciler

A shallow embedding of `pkg/utills/utills.go` and
`pkg/controllers/service_controller.go`.

* Go structs become Lean structures with the Go field names
  (`Spec.Type` is written `Spec.ServiceType`, since `Type` is reserved).
* A Go `map[string]string` is an association list read with `index`
  (Go's `m[k]`, the zero value `""` for an absent key).
* A Go function returning `(value, error)` returns an `Outcome`, which also
  records a run-time panic (an index out of range) as a third result.
* The two API servers are an explicit `ApiState`; the controller-runtime
  client is modelled by the `client*` functions below, each of which can also
  be made to fail through the `Faults` of the environment. A List of infra
  services returns the stored services in the `ListOrder` of the environment,
  which a later reconcile need not share.
* Every reconciler function returns a `Run`: its Go result, the API state it
  leaves behind, and the mutating requests it issued, in order.
-/

namespace SvcLbSync

/-! ## Go values -/

/-- Go `map[string]string`. -/
abbrev StringMap := List (String × String)

/-- Go map indexing `m[k]`: the value stored under `k`, or `""` when absent. -/
def index (m : StringMap) (k : String) : String :=
  (m.lookup k).getD ""

/-- Go `intstr.IntOrString`; `Kind` is its `Type` field (0 = Int, 1 = String). -/
structure IntOrString where
  Kind : Nat := 0
  IntVal : Int := 0
  StrVal : String := ""
deriving DecidableEq, Repr

/-- Go `corev1.ServicePort`. -/
structure ServicePort where
  Name : String := ""
  Protocol : String := ""
  AppProtocol : Option String := none
  Port : Int := 0
  TargetPort : IntOrString := {}
  NodePort : Int := 0
deriving DecidableEq, Repr

/-- Go `corev1.LoadBalancerIngress`. -/
structure LoadBalancerIngress where
  IP : String := ""
  Hostname : String := ""
deriving DecidableEq, Repr

/-- Go `corev1.LoadBalancerStatus`. -/
structure LoadBalancerStatus where
  Ingress : List LoadBalancerIngress := []
deriving DecidableEq, Repr

/-- Go `corev1.ServiceStatus`. -/
structure ServiceStatus where
  LoadBalancer : LoadBalancerStatus := {}
deriving DecidableEq, Repr

/-- Go `corev1.ServiceSpec`, the fields the agent reads or writes. -/
structure ServiceSpec where
  Ports : List ServicePort := []
  Selector : StringMap := []
  ServiceType : String := ""
deriving DecidableEq, Repr

/-- Go `metav1.ObjectMeta`, the fields the agent reads or writes. -/
structure ObjectMeta where
  Name : String := ""
  GenerateName : String := ""
  Namespace : String := ""
  Annotations : StringMap := []
deriving DecidableEq, Repr

/-- Go `corev1.Service`; `{}` is the zero value `&corev1.Service{}`. -/
structure Service where
  ObjectMeta : ObjectMeta := {}
  Spec : ServiceSpec := {}
  Status : ServiceStatus := {}
deriving DecidableEq, Repr

/-- Go `types.NamespacedName`. -/
structure NamespacedName where
  Namespace : String := ""
  Name : String := ""
deriving DecidableEq, Repr

/-- Go `ctrl.Request`: it embeds a `NamespacedName`. -/
abbrev Request := NamespacedName

/-- An item of the `unstructured.UnstructuredList` of `Cluster` resources. -/
structure Unstructured where
  Namespace : String := ""
  Name : String := ""
deriving DecidableEq, Repr

/-- An error returned by a client call. -/
inductive ApiError where
  | notFound
  | alreadyExists
  | invalid
  | other (reason : String)
deriving DecidableEq, Repr

/-- Go `errors.IsNotFound`. -/
def IsNotFound (err : ApiError) : Bool :=
  match err with
  | .notFound => true
  | _ => false

/-- The result of a Go function of type `(α, error)`: a value with a nil
error, a non-nil error, or a run-time panic. -/
inductive Outcome (α : Type) where
  | ret (value : α)
  | fail (err : ApiError)
  | panic (msg : String)
deriving DecidableEq, Repr

/-- The result of a Go function that returns a value but may panic. -/
inductive MayPanic (α : Type) where
  | val (value : α)
  | panic (msg : String)
deriving DecidableEq, Repr

/-- The message of Go's run-time panic for `xs[0]` on an empty slice. -/
def indexOutOfRange : String := "runtime error: index out of range [0] with length 0"

/-! ## The environment: two API servers behind the controller-runtime client -/

/-- What the two API servers hold: the services the infra client sees, the
services of the hosted cluster, and the `Cluster` resources of the infra
cluster. -/
structure ApiState where
  infra : List Service := []
  hosted : List Service := []
  clusters : List Unstructured := []
deriving DecidableEq, Repr

/-- An error the API answers a client call with, one slot per call the
reconciler makes (each is made at most once in a reconcile); `none` lets the
call through to the API state. -/
structure Faults where
  infraGet : Option ApiError := none
  hostedGet : Option ApiError := none
  infraList : Option ApiError := none
  clusterList : Option ApiError := none
  infraCreate : Option ApiError := none
  infraDelete : Option ApiError := none
  hostedStatusUpdate : Option ApiError := none
deriving DecidableEq, Repr

/-- The order in which one List call of the infra client returns the stored
services. The infra client is the manager's client (`mgr.GetClient()`), which
lists from its cache in no fixed order: any rearrangement of the stored
services, and not the same one from one call to the next. -/
structure ListOrder where
  arrange : List Service → List Service
  perm : ∀ store, (arrange store).Perm store

/-- The List call returns the services in the order they are stored in. -/
def storedOrder : ListOrder :=
  { arrange := fun store => store, perm := fun store => List.Perm.refl store }

/-- The List call returns the services in the reverse of that order. -/
def reversedOrder : ListOrder :=
  { arrange := fun store => store.reverse, perm := fun store => List.reverse_perm store }

/-- The process environment of one reconcile: the value of `POD_NAMESPACE`,
the answers of the API to the calls, the order its List of services comes in,
and the suffix the API server appends to a `generateName`. -/
structure Env where
  podNamespace : String := ""
  faults : Faults := {}
  listOrder : ListOrder := storedOrder
  suffix : String := "x7k2p"

/-- The same environment for a later reconcile, whose List of services comes
in another order. -/
def withOrder (env : Env) (order : ListOrder) : Env :=
  { env with listOrder := order }

/-- A mutating request issued to an API server. -/
inductive Call where
  | infraCreate (obj : Service)
  | infraDelete (obj : Service)
  | hostedStatusUpdate (obj : Service)
deriving DecidableEq, Repr

/-- One execution of a reconciler function. -/
structure Run where
  result : Outcome Unit
  state : ApiState
  calls : List Call
deriving DecidableEq, Repr

/-- The key of an object. -/
def keyOf (obj : Service) : NamespacedName :=
  { Namespace := obj.ObjectMeta.Namespace, Name := obj.ObjectMeta.Name }

/-- Whether a stored object is the one a key names. -/
def sameKey (key : NamespacedName) (obj : Service) : Bool :=
  decide (obj.ObjectMeta.Namespace = key.Namespace) && decide (obj.ObjectMeta.Name = key.Name)

/-- Client `Get`: the stored object under the key, or NotFound. Every other
answer (a timeout, a refused request) is a fault. -/
def clientGet (fault : Option ApiError) (store : List Service) (key : NamespacedName) :
    Except ApiError Service :=
  match fault with
  | some err => .error err
  | none =>
    match store.find? (sameKey key) with
    | some obj => .ok obj
    | none => .error .notFound

/-- Client `List` of services: every stored object (the cache the client
lists from is taken to be in step with the API server), in the order of this
call. -/
def clientList (fault : Option ApiError) (order : ListOrder) (store : List Service) :
    Except ApiError (List Service) :=
  match fault with
  | some err => .error err
  | none => .ok (order.arrange store)

/-- Client `List` of `Cluster` resources with `client.InNamespace(ns)`; the
empty namespace lists every namespace. -/
def clientListClusters (fault : Option ApiError) (store : List Unstructured) (ns : String) :
    Except ApiError (List Unstructured) :=
  match fault with
  | some err => .error err
  | none => .ok (store.filter (fun c => decide (ns = "") || decide (c.Namespace = ns)))

/-- Client `Create`: the server names the object (`generateName` plus a
suffix when `name` is empty) and stores it; the new store is returned. -/
def clientCreate (fault : Option ApiError) (suffix : String) (store : List Service)
    (obj : Service) : Except ApiError (List Service) :=
  match fault with
  | some err => .error err
  | none =>
    if obj.ObjectMeta.Name = "" ∧ obj.ObjectMeta.GenerateName = "" then .error .invalid
    else
      let name := if obj.ObjectMeta.Name = "" then obj.ObjectMeta.GenerateName ++ suffix
        else obj.ObjectMeta.Name
      let stored : Service := { obj with ObjectMeta := { obj.ObjectMeta with Name := name } }
      if store.any (sameKey (keyOf stored)) then .error .alreadyExists
      else .ok (store ++ [stored])

/-- Client `Delete`: removes the object with the key of `obj`, NotFound when
there is none. -/
def clientDelete (fault : Option ApiError) (store : List Service) (obj : Service) :
    Except ApiError (List Service) :=
  match fault with
  | some err => .error err
  | none =>
    if store.any (sameKey (keyOf obj)) then .ok (store.filter (fun s => !sameKey (keyOf obj) s))
    else .error .notFound

/-- What a status update of `obj` makes of a stored object: the object under
the key of `obj` takes the status of `obj`. -/
def statusUpdated (obj stored : Service) : Service :=
  if sameKey (keyOf obj) stored then { stored with Status := obj.Status } else stored

/-- Client `Status().Update`: replaces the status of the stored object with
the key of `obj`, NotFound when there is none. -/
def clientStatusUpdate (fault : Option ApiError) (store : List Service) (obj : Service) :
    Except ApiError (List Service) :=
  match fault with
  | some err => .error err
  | none =>
    if store.any (sameKey (keyOf obj)) then
      .ok (store.map (statusUpdated obj))
    else .error .notFound

/-! ## pkg/utills/utills.go -/

/-- The annotation that names the source service. -/
def SyncSvcNameAnnotation : String := "dana.io/source-svc-name"

/-- The annotation that names the namespace of the source service. -/
def SyncSvcNamespaceAnnotation : String := "dana.io/source-svc-namespace"

/-- The label the virt-launcher pods of a hosted cluster carry. -/
def ClusterNameLabel : String := "cluster.x-k8s.io/cluster-name"

/-- `GetCurrentNs`: `os.Getenv("POD_NAMESPACE")`. -/
def GetCurrentNs (env : Env) : String :=
  env.podNamespace

/-- `GetInfraSvcFromHostedSvc`: the mirror composed from a hosted service.
`hostedSvc.Spec.Ports[0]` panics on an empty port list. -/
def GetInfraSvcFromHostedSvc (env : Env) (hostedSvc : Service) (clusterGenName : String) :
    MayPanic Service :=
  match hostedSvc.Spec.Ports with
  | [] => .panic indexOutOfRange
  | port0 :: _ =>
    .val {
      ObjectMeta := {
        GenerateName := hostedSvc.ObjectMeta.Name ++ "-"
        Namespace := GetCurrentNs env
        Annotations := [( SyncSvcNameAnnotation, hostedSvc.ObjectMeta.Name),
          ( SyncSvcNamespaceAnnotation, hostedSvc.ObjectMeta.Namespace)] }
      Spec := {
        Ports := [{
          Name := port0.Name
          Protocol := port0.Protocol
          AppProtocol := port0.AppProtocol
          Port := port0.Port
          TargetPort := { IntVal := port0.NodePort } }]
        Selector := [(ClusterNameLabel, clusterGenName)]
        ServiceType := "LoadBalancer" } }

/-- `GetClusterGenName`: the name of the first listed `Cluster`.
`cluster.Items[0]` panics on an empty list. -/
def GetClusterGenName (env : Env) (σ : ApiState) : Outcome String :=
  match clientListClusters env.faults.clusterList σ.clusters (GetCurrentNs env) with
  | .error err => .fail err
  | .ok items =>
    match items with
    | [] => .panic indexOutOfRange
    | item0 :: _ => .ret item0.Name

/-- `IsObjectMissing`: an object with an empty name. -/
def IsObjectMissing (object : Service) : Bool :=
  if object.ObjectMeta.Name = "" then true else false

/-! ## pkg/controllers/service_controller.go -/

/-- The idiom around both `Get` calls of pair resolution,
`if err := c.Get(ctx, key, obj); err != nil { if !errors.IsNotFound(err) { return nil, nil, err } }`:
a NotFound leaves `obj` the zero service it was allocated as, any other error
is returned. -/
def getOrZero (got : Except ApiError Service) : Except ApiError Service :=
  match got with
  | .ok obj => .ok obj
  | .error err => if !IsNotFound err then .error err else .ok {}

/-- `GetSvcsFromInfraReconclie`: the mirror is fetched by the request, the
hosted service by the mirror's source annotations; NotFound leaves the zero
value on either side. -/
def GetSvcsFromInfraReconclie (env : Env) (σ : ApiState) (req : Request) :
    Except ApiError (Service × Service) :=
  match getOrZero (clientGet env.faults.infraGet σ.infra req) with
  | .error err => .error err
  | .ok infraSvc =>
    let hostedSvcKey : NamespacedName := {
      Namespace := index infraSvc.ObjectMeta.Annotations SyncSvcNamespaceAnnotation
      Name := index infraSvc.ObjectMeta.Annotations SyncSvcNameAnnotation }
    match getOrZero (clientGet env.faults.hostedGet σ.hosted hostedSvcKey) with
    | .error err => .error err
    | .ok hostedSvc => .ok (infraSvc, hostedSvc)

/-- What `syncedSvc` points to inside `findSyncedSvc`: the service allocated
by `&corev1.Service{}`, or the loop variable `svc` (after `syncedSvc = &svc`). -/
inductive SvcRef where
  | fresh
  | loopVar
deriving DecidableEq, Repr

/-- The variables of the `for _, svc := range svcList.Items` loop. The module
is built with a Go toolchain older than 1.22 (it uses the controller-runtime
API of 2022), where a range loop has a single variable `svc` that every
iteration overwrites. -/
structure RangeVars where
  svc : Service := {}
  syncedSvc : SvcRef := .fresh
deriving DecidableEq, Repr

/-- One iteration of the loop of `findSyncedSvc`: the item is copied into
`svc`, and `syncedSvc` is pointed at `svc` when the annotations match. -/
def findSyncedSvcStep (req : Request) (vars : RangeVars) (item : Service) : RangeVars :=
  let svc := item
  if index svc.ObjectMeta.Annotations SyncSvcNamespaceAnnotation = req.Namespace ∧
      index svc.ObjectMeta.Annotations SyncSvcNameAnnotation = req.Name then
    { svc := svc, syncedSvc := .loopVar }
  else
    { svc := svc, syncedSvc := vars.syncedSvc }

/-- The service `syncedSvc` points to once the loop has ended. -/
def deref (vars : RangeVars) : Service :=
  match vars.syncedSvc with
  | .fresh => {}
  | .loopVar => vars.svc

/-- `findSyncedSvc`: lists the infra services and looks for the one whose
source annotations are the request. -/
def findSyncedSvc (env : Env) (σ : ApiState) (req : Request) : Except ApiError Service :=
  match clientList env.faults.infraList env.listOrder σ.infra with
  | .error err => .error err
  | .ok items => .ok (deref (items.foldl (findSyncedSvcStep req) {}))

/-- `GetSvcsFromHostedReconclie`: the hosted service is fetched by the
request, the mirror is searched for with `findSyncedSvc`. -/
def GetSvcsFromHostedReconclie (env : Env) (σ : ApiState) (req : Request) :
    Except ApiError (Service × Service) :=
  match getOrZero (clientGet env.faults.hostedGet σ.hosted req) with
  | .error err => .error err
  | .ok hostedSvc =>
    match findSyncedSvc env σ req with
    | .error err => .error err
    | .ok infraSvc => .ok (infraSvc, hostedSvc)

/-- `ReconcileMissingInfra`: creates the mirror of a hosted service. -/
def ReconcileMissingInfra (env : Env) (σ : ApiState) (hostedSvc : Service) : Run :=
  match GetClusterGenName env σ with
  | .fail err => { result := .fail err, state := σ, calls := [] }
  | .panic msg => { result := .panic msg, state := σ, calls := [] }
  | .ret clusterGenName =>
    match GetInfraSvcFromHostedSvc env hostedSvc clusterGenName with
    | .panic msg => { result := .panic msg, state := σ, calls := [] }
    | .val infraSvc =>
      match clientCreate env.faults.infraCreate env.suffix σ.infra infraSvc with
      | .error err => { result := .fail err, state := σ, calls := [.infraCreate infraSvc] }
      | .ok infra =>
        { result := .ret (), state := { σ with infra := infra }, calls := [.infraCreate infraSvc] }

/-- `ReconcileMissingHosted`: deletes the mirror of a hosted service that is
gone. -/
def ReconcileMissingHosted (env : Env) (σ : ApiState) (infraSvc : Service) : Run :=
  match clientDelete env.faults.infraDelete σ.infra infraSvc with
  | .error err => { result := .fail err, state := σ, calls := [.infraDelete infraSvc] }
  | .ok infra =>
    { result := .ret (), state := { σ with infra := infra }, calls := [.infraDelete infraSvc] }

/-- The hosted service after
`hostedSvc.Status.LoadBalancer.Ingress = infraSvc.Status.LoadBalancer.Ingress`. -/
def withIngress (hostedSvc : Service) (ingress : List LoadBalancerIngress) : Service :=
  { hostedSvc with
    Status := { hostedSvc.Status with
      LoadBalancer := { hostedSvc.Status.LoadBalancer with Ingress := ingress } } }

/-- `ReconcileNormal`: copies the mirror's ingress into the status of a
hosted service that has none. -/
def ReconcileNormal (env : Env) (σ : ApiState) (infraSvc hostedSvc : Service) : Run :=
  if hostedSvc.Status.LoadBalancer.Ingress.length ≠ 0 then
    { result := .ret (), state := σ, calls := [] }
  else
    let hostedSvc := withIngress hostedSvc infraSvc.Status.LoadBalancer.Ingress
    match clientStatusUpdate env.faults.hostedStatusUpdate σ.hosted hostedSvc with
    | .error err => { result := .fail err, state := σ, calls := [.hostedStatusUpdate hostedSvc] }
    | .ok hosted =>
      { result := .ret (), state := { σ with hosted := hosted },
        calls := [.hostedStatusUpdate hostedSvc] }

/-- Pair resolution, the first `if` of `Reconcile`: a request outside the
agent's namespace is taken to come from the hosted cluster. -/
def resolvePair (env : Env) (σ : ApiState) (req : Request) :
    Except ApiError (Service × Service) :=
  if req.Namespace ≠ GetCurrentNs env then GetSvcsFromHostedReconclie env σ req
  else GetSvcsFromInfraReconclie env σ req

/-- `Reconcile`. -/
def Reconcile (env : Env) (σ : ApiState) (req : Request) : Run :=
  match resolvePair env σ req with
  | .error err => { result := .fail err, state := σ, calls := [] }
  | .ok (infraSvc, hostedSvc) =>
    let infraSvcMissing := IsObjectMissing infraSvc
    let hostedSvcMissing := IsObjectMissing hostedSvc
    if infraSvcMissing && hostedSvcMissing then
      { result := .ret (), state := σ, calls := [] }
    else if infraSvcMissing then ReconcileMissingInfra env σ hostedSvc
    else if hostedSvcMissing then ReconcileMissingHosted env σ infraSvc
    else ReconcileNormal env σ infraSvc hostedSvc

/-- The `lbFilterFunc` closure of `SetupWithManager`. -/
def lbFilterFunc (svc : Service) : Bool :=
  if svc.Spec.ServiceType ≠ "LoadBalancer" || svc.ObjectMeta.Name = "kube-apiserver" then false
  else true

/-- Go `event.CreateEvent`. -/
structure CreateEvent where
  Object : Service
deriving DecidableEq, Repr

/-- Go `event.DeleteEvent`. -/
structure DeleteEvent where
  Object : Service
deriving DecidableEq, Repr

/-- Go `event.UpdateEvent`. -/
structure UpdateEvent where
  ObjectOld : Service
  ObjectNew : Service
deriving DecidableEq, Repr

/-- Go `event.GenericEvent`. -/
structure GenericEvent where
  Object : Service
deriving DecidableEq, Repr

/-- Go `predicate.Funcs`. -/
structure Funcs where
  CreateFunc : CreateEvent → Bool
  DeleteFunc : DeleteEvent → Bool
  UpdateFunc : UpdateEvent → Bool
  GenericFunc : GenericEvent → Bool

/-- The `LbFilters` predicate of `SetupWithManager`. -/
def LbFilters : Funcs where
  CreateFunc := fun e => lbFilterFunc e.Object
  DeleteFunc := fun e => lbFilterFunc e.Object
  UpdateFunc := fun e => lbFilterFunc e.ObjectNew
  GenericFunc := fun e => lbFilterFunc e.Object

/-- An event delivered to the controller, from the infra watch or from the
hosted channel. -/
inductive Event where
  | create (e : CreateEvent)
  | delete (e : DeleteEvent)
  | update (e : UpdateEvent)
  | generic (e : GenericEvent)
deriving DecidableEq, Repr

/-- The controller built by `SetupWithManager`: `WithEventFilter(LbFilters)`
runs the predicate of the event's kind, and `EnqueueRequestForObject` queues
the key of the event's object (the new one of an update) when it accepts. -/
def requestsFor (ev : Event) : List Request :=
  match ev with
  | .create e => if LbFilters.CreateFunc e then [keyOf e.Object] else []
  | .delete e => if LbFilters.DeleteFunc e then [keyOf e.Object] else []
  | .update e => if LbFilters.UpdateFunc e then [keyOf e.ObjectNew] else []
  | .generic e => if LbFilters.GenericFunc e then [keyOf e.Object] else []

/-! ## Concrete scenarios -/

/-- The agent runs in namespace `infra-a`; the API answers every call. -/
def envA : Env := { podNamespace := "infra-a" }

/-- As `envA`, with the listing of `Cluster` resources timing out. -/
def envClusterListDown : Env :=
  { podNamespace := "infra-a", faults := { clusterList := some (.other "timeout") } }

/-- The port of the hosted service `app/web`. -/
def webPort : ServicePort :=
  { Name := "http", Protocol := "TCP", Port := 80, NodePort := 31080 }

/-- The hosted service `app/web`, with no ingress yet. -/
def hostedWeb : Service :=
  { ObjectMeta := { Name := "web", Namespace := "app" }
    Spec := { Ports := [webPort], ServiceType := "LoadBalancer" } }

/-- The hosted service `app/web` with an ingress of its own. -/
def hostedWebSticky : Service :=
  withIngress hostedWeb [{ IP := "10.0.0.9" }]

/-- A hosted service `app/web` without ports. -/
def hostedWebNoPorts : Service :=
  { ObjectMeta := { Name := "web", Namespace := "app" }
    Spec := { Ports := [], ServiceType := "ExternalName" } }

/-- The mirror of `app/web`, before the infra load balancer has given it an
address. -/
def mirrorWeb : Service :=
  { ObjectMeta := {
      Name := "web-x7k2p", GenerateName := "web-", Namespace := "infra-a"
      Annotations := [( SyncSvcNameAnnotation, "web"), ( SyncSvcNamespaceAnnotation, "app")] }
    Spec := {
      Ports := [{ Name := "http", Protocol := "TCP", Port := 80, TargetPort := { IntVal := 31080 } }]
      Selector := [(ClusterNameLabel, "infra-a-cluster")]
      ServiceType := "LoadBalancer" } }

/-- The mirror of `app/web` with the address `10.0.0.5`. -/
def mirrorWebReady : Service :=
  withIngress mirrorWeb [{ IP := "10.0.0.5" }]

/-- The mirror of another hosted service, `app/api`. -/
def mirrorApi : Service :=
  { ObjectMeta := {
      Name := "api-9fz2q", GenerateName := "api-", Namespace := "infra-a"
      Annotations := [( SyncSvcNameAnnotation, "api"), ( SyncSvcNamespaceAnnotation, "app")] }
    Spec := {
      Ports := [{ Name := "https", Protocol := "TCP", Port := 443, TargetPort := { IntVal := 30443 } }]
      Selector := [(ClusterNameLabel, "infra-a-cluster")]
      ServiceType := "LoadBalancer" }
    Status := { LoadBalancer := { Ingress := [{ IP := "10.0.0.7" }] } } }

/-- The infra cluster's own API-server service, in `infra-a`: a LoadBalancer
with an address and without source annotations. -/
def infraApiserver : Service :=
  { ObjectMeta := { Name := "kube-apiserver", Namespace := "infra-a" }
    Spec := { Ports := [{ Name := "https", Protocol := "TCP", Port := 6443 }]
              ServiceType := "LoadBalancer" }
    Status := { LoadBalancer := { Ingress := [{ IP := "192.0.2.1" }] } } }

/-- Another service of `infra-a` without source annotations. -/
def infraEtcd : Service :=
  { ObjectMeta := { Name := "etcd-client", Namespace := "infra-a" }
    Spec := { Ports := [{ Name := "etcd", Protocol := "TCP", Port := 2379 }]
              ServiceType := "ClusterIP" } }

/-- The `Cluster` resource of namespace `infra-a`. -/
def clusterA : Unstructured := { Namespace := "infra-a", Name := "infra-a-cluster" }

/-- The request for the hosted service `app/web`. -/
def reqWeb : Request := { Namespace := "app", Name := "web" }

/-- The hosted service `kube-system/kube-apiserver`, of type LoadBalancer. -/
def hostedApiserver : Service :=
  { ObjectMeta := { Name := "kube-apiserver", Namespace := "kube-system" }
    Spec := { Ports := [{ Name := "https", Protocol := "TCP", Port := 6443, NodePort := 30643 }]
              ServiceType := "LoadBalancer" } }

/-- A hosted service of type ClusterIP. -/
def hostedClusterIP : Service :=
  { ObjectMeta := { Name := "db", Namespace := "app" }
    Spec := { Ports := [{ Name := "pg", Protocol := "TCP", Port := 5432 }]
              ServiceType := "ClusterIP" } }

/-- Hosted `app/web` exists and has no mirror yet. -/
def stateNoMirror : ApiState := { hosted := [hostedWeb], clusters := [clusterA] }

/-- Hosted `app/web` and its mirror, neither with an ingress. -/
def statePending : ApiState :=
  { infra := [mirrorWeb], hosted := [hostedWeb], clusters := [clusterA] }

/-- The mirror of `app/web` is listed before the mirror of `app/api`. -/
def stateTwoMirrors : ApiState :=
  { infra := [mirrorWeb, mirrorApi], hosted := [hostedWeb], clusters := [clusterA] }

/-- Hosted `app/web` has no mirror yet; the agent's namespace holds two
services without source annotations and the mirror of `app/api`. -/
def stateCrowded : ApiState :=
  { infra := [infraApiserver, infraEtcd, mirrorApi], hosted := [hostedWeb],
    clusters := [clusterA] }

/-- Hosted `app/web` and its mirror, neither with an ingress, and the infra
cluster's API-server service stored before the mirror. -/
def statePendingBesideApiserver : ApiState :=
  { infra := [infraApiserver, mirrorWeb], hosted := [hostedWeb], clusters := [clusterA] }

/-- Hosted `app/web` exists, no `Cluster` resource does. -/
def stateNoCluster : ApiState := { hosted := [hostedWeb] }

/-- Hosted `app/web` has no ports and no mirror. -/
def stateNoPorts : ApiState := { hosted := [hostedWebNoPorts], clusters := [clusterA] }

/-! ## Predicates of the specification -/

/-- The hosted service an infra service names in its source annotations. -/
def sourceOf (svc : Service) : NamespacedName :=
  { Namespace := index svc.ObjectMeta.Annotations SyncSvcNamespaceAnnotation
    Name := index svc.ObjectMeta.Annotations SyncSvcNameAnnotation }

/-- Whether a service carries the pair of source annotations. -/
def carriesSource (svc : Service) : Bool :=
  (svc.ObjectMeta.Annotations.lookup SyncSvcNameAnnotation).isSome &&
    (svc.ObjectMeta.Annotations.lookup SyncSvcNamespaceAnnotation).isSome

/-- A mirror: an infra service in the agent's namespace that carries the pair
of source annotations. -/
def isMirror (env : Env) (svc : Service) : Bool :=
  decide (svc.ObjectMeta.Namespace = GetCurrentNs env) && carriesSource svc

/-- No two of the services that `counted` selects name the same source. -/
def UniqueAmong (counted : Service → Bool) (infra : List Service) : Prop :=
  ((infra.filter counted).map sourceOf).Nodup

/-- Mirror uniqueness: no two of the infra services in the agent's namespace
that carry source annotations carry the same pair. Services without source
annotations carry no pair and are not compared. -/
def MirrorUnique (env : Env) (infra : List Service) : Prop :=
  UniqueAmong (isMirror env) infra

/-- The number of mirrors whose source annotations are `key`. -/
def mirrorCount (env : Env) (infra : List Service) (key : NamespacedName) : Nat :=
  (infra.filter (isMirror env)).countP (fun s => decide (sourceOf s = key))

instance (counted : Service → Bool) (infra : List Service) :
    Decidable (UniqueAmong counted infra) := by
  unfold UniqueAmong
  infer_instance

instance (env : Env) (infra : List Service) : Decidable (MirrorUnique env infra) := by
  unfold MirrorUnique
  infer_instance

/-! ## Theorems -/

/-! ### The client -/

theorem sameKey_iff (key : NamespacedName) (obj : Service) :
    sameKey key obj = true ↔
      obj.ObjectMeta.Namespace = key.Namespace ∧ obj.ObjectMeta.Name = key.Name := by
  simp [sameKey]

theorem sameKey_keyOf_self (obj : Service) : sameKey (keyOf obj) obj = true := by
  simp [sameKey, keyOf]

/-- A successful `Get` went through to the store and found the object under
its key. -/
theorem clientGet_ok {fault : Option ApiError} {store : List Service} {key : NamespacedName}
    {obj : Service} (h : clientGet fault store key = .ok obj) :
    fault = none ∧ store.find? (sameKey key) = some obj := by
  unfold clientGet at h
  cases fault with
  | some err => simp at h
  | none =>
    cases hfind : store.find? (sameKey key) with
    | none => simp [hfind] at h
    | some found =>
      simp only [hfind, Except.ok.injEq] at h
      exact ⟨rfl, by rw [h]⟩

theorem clientGet_ok_mem {fault : Option ApiError} {store : List Service} {key : NamespacedName}
    {obj : Service} (h : clientGet fault store key = .ok obj) :
    obj ∈ store ∧ obj.ObjectMeta.Namespace = key.Namespace ∧ obj.ObjectMeta.Name = key.Name := by
  obtain ⟨_, hfind⟩ := clientGet_ok h
  exact ⟨List.mem_of_find?_eq_some hfind, (sameKey_iff key obj).mp (List.find?_some hfind)⟩

/-- An accepted `Create` appends one object, which has the namespace and the
annotations of the submitted one. -/
theorem clientCreate_ok {fault : Option ApiError} {suffix : String} {store store' : List Service}
    {obj : Service} (h : clientCreate fault suffix store obj = .ok store') :
    ∃ stored, stored.ObjectMeta.Namespace = obj.ObjectMeta.Namespace ∧
      stored.ObjectMeta.Annotations = obj.ObjectMeta.Annotations ∧
      store' = store ++ [stored] := by
  unfold clientCreate at h
  cases fault with
  | some err => simp at h
  | none =>
    simp only at h
    repeat' split at h
    all_goals first
      | (simp at h; done)
      | (simp only [Except.ok.injEq] at h; refine ⟨_, ?_, ?_, h.symm⟩ <;> rfl)

/-- An accepted `Delete` keeps a part of the stored objects. -/
theorem clientDelete_ok {fault : Option ApiError} {store store' : List Service}
    {obj : Service} (h : clientDelete fault store obj = .ok store') :
    ∃ keep : Service → Bool, store' = store.filter keep := by
  unfold clientDelete at h
  cases fault with
  | some err => simp at h
  | none =>
    simp only at h
    split at h
    · simp only [Except.ok.injEq] at h
      exact ⟨_, h.symm⟩
    · simp at h

/-! ### The loop of `findSyncedSvc` -/

theorem sourceOf_eq_iff (svc : Service) (req : Request) :
    sourceOf svc = req ↔
      index svc.ObjectMeta.Annotations SyncSvcNamespaceAnnotation = req.Namespace ∧
      index svc.ObjectMeta.Annotations SyncSvcNameAnnotation = req.Name := by
  cases req
  simp [sourceOf]

theorem findSyncedSvcStep_svc (req : Request) (vars : RangeVars) (item : Service) :
    (findSyncedSvcStep req vars item).svc = item := by
  simp only [findSyncedSvcStep]
  split <;> rfl

theorem findSyncedSvcStep_syncedSvc (req : Request) (vars : RangeVars) (item : Service) :
    (findSyncedSvcStep req vars item).syncedSvc =
      if sourceOf item = req then .loopVar else vars.syncedSvc := by
  simp only [findSyncedSvcStep, sourceOf_eq_iff]
  split <;> rfl

/-- After the loop the variable `svc` holds the last item of the list. -/
theorem foldl_findSyncedSvcStep_svc (req : Request) (items : List Service) (vars : RangeVars) :
    (items.foldl (findSyncedSvcStep req) vars).svc = items.getLast?.getD vars.svc := by
  induction items generalizing vars with
  | nil => rfl
  | cons item rest ih =>
    rw [List.foldl_cons, ih, findSyncedSvcStep_svc]
    cases rest with
    | nil => rfl
    | cons next more =>
      have hlast : (next :: more).getLast? = some ((next :: more).getLast (by simp)) :=
        List.getLast?_eq_getLast _ _
      simp only [List.getLast?_cons_cons, hlast, Option.getD_some]

/-- After the loop `syncedSvc` points at the loop variable exactly when it did
before or some item carried the request in its source annotations. -/
theorem foldl_findSyncedSvcStep_syncedSvc (req : Request) (items : List Service)
    (vars : RangeVars) :
    (items.foldl (findSyncedSvcStep req) vars).syncedSvc = .loopVar ↔
      vars.syncedSvc = .loopVar ∨ ∃ s ∈ items, sourceOf s = req := by
  induction items generalizing vars with
  | nil => simp
  | cons item rest ih =>
    rw [List.foldl_cons, ih, findSyncedSvcStep_syncedSvc]
    by_cases hm : sourceOf item = req
    · simp [hm]
    · simp [hm]

/-- What the loop of `findSyncedSvc` computes: the last listed service when
some listed service carries the request in its source annotations, the zero
service otherwise. -/
theorem deref_foldl_findSyncedSvcStep (req : Request) (items : List Service) :
    deref (items.foldl (findSyncedSvcStep req) {}) =
      if ∃ s ∈ items, sourceOf s = req then items.getLast?.getD {} else {} := by
  have hsvc := foldl_findSyncedSvcStep_svc req items {}
  have hptr := foldl_findSyncedSvcStep_syncedSvc req items {}
  unfold deref
  by_cases hm : ∃ s ∈ items, sourceOf s = req
  · rw [if_pos hm]
    have hloop := hptr.mpr (Or.inr hm)
    rw [hloop]
    exact hsvc
  · rw [if_neg hm]
    cases href : (items.foldl (findSyncedSvcStep req) {}).syncedSvc with
    | fresh => rfl
    | loopVar =>
      rcases hptr.mp href with h | h
      · cases h
      · exact absurd h hm

theorem exists_mem_arrange (order : ListOrder) (store : List Service) (p : Service → Prop) :
    (∃ s ∈ order.arrange store, p s) ↔ ∃ s ∈ store, p s := by
  constructor
  · rintro ⟨s, hs, hp⟩
    exact ⟨s, (order.perm store).mem_iff.mp hs, hp⟩
  · rintro ⟨s, hs, hp⟩
    exact ⟨s, (order.perm store).mem_iff.mpr hs, hp⟩

/-- What `findSyncedSvc` returns when the List call is answered: the service
listed last when some stored service carries the request in its source
annotations, the zero service otherwise. -/
theorem findSyncedSvc_eq {env : Env} (σ : ApiState) (req : Request)
    (hf : env.faults.infraList = none) :
    findSyncedSvc env σ req =
      .ok (if ∃ s ∈ σ.infra, sourceOf s = req then
        (env.listOrder.arrange σ.infra).getLast?.getD {} else {}) := by
  unfold findSyncedSvc clientList
  simp only [hf]
  rw [deref_foldl_findSyncedSvcStep]
  by_cases hm : ∃ s ∈ σ.infra, sourceOf s = req
  · rw [if_pos hm, if_pos ((exists_mem_arrange _ _ _).mpr hm)]
  · rw [if_neg hm, if_neg (fun h => hm ((exists_mem_arrange _ _ _).mp h))]

theorem findSyncedSvc_fault {env : Env} {σ : ApiState} {req : Request} {svc : Service}
    (h : findSyncedSvc env σ req = .ok svc) : env.faults.infraList = none := by
  unfold findSyncedSvc clientList at h
  cases hf : env.faults.infraList with
  | some err => simp [hf] at h
  | none => rfl

/-- The service `findSyncedSvc` returns is the zero service, when no stored
service carries the request as its source, or one of the stored services,
when some does. -/
theorem findSyncedSvc_cases {env : Env} {σ : ApiState} {req : Request} {svc : Service}
    (h : findSyncedSvc env σ req = .ok svc) :
    (svc = {} ∧ ∀ s ∈ σ.infra, sourceOf s ≠ req) ∨
    (svc ∈ σ.infra ∧ ∃ s ∈ σ.infra, sourceOf s = req) := by
  rw [findSyncedSvc_eq σ req (findSyncedSvc_fault h)] at h
  simp only [Except.ok.injEq] at h
  by_cases hm : ∃ s ∈ σ.infra, sourceOf s = req
  · right
    rw [if_pos hm] at h
    obtain ⟨s, hs, _⟩ := hm
    have hs' : s ∈ env.listOrder.arrange σ.infra := (env.listOrder.perm σ.infra).mem_iff.mpr hs
    have hne : env.listOrder.arrange σ.infra ≠ [] := List.ne_nil_of_mem hs'
    have hlast : (env.listOrder.arrange σ.infra).getLast? =
        some ((env.listOrder.arrange σ.infra).getLast hne) := List.getLast?_eq_getLast _ _
    rw [hlast, Option.getD_some] at h
    refine ⟨?_, s, hs, by assumption⟩
    rw [← h]
    exact (env.listOrder.perm σ.infra).mem_iff.mp (List.getLast_mem hne)
  · left
    rw [if_neg hm] at h
    exact ⟨h.symm, fun s hs hsrc => hm ⟨s, hs, hsrc⟩⟩

/-! ### The four branches of `Reconcile` -/

theorem IsObjectMissing_iff (object : Service) :
    IsObjectMissing object = true ↔ object.ObjectMeta.Name = "" := by
  unfold IsObjectMissing
  split <;> simp_all

theorem IsObjectMissing_eq_false_iff (object : Service) :
    IsObjectMissing object = false ↔ object.ObjectMeta.Name ≠ "" := by
  unfold IsObjectMissing
  split <;> simp_all

theorem Reconcile_of_resolve_error {env : Env} {σ : ApiState} {req : Request} {err : ApiError}
    (hres : resolvePair env σ req = .error err) :
    Reconcile env σ req = { result := .fail err, state := σ, calls := [] } := by
  simp only [Reconcile, hres]

theorem Reconcile_both_missing {env : Env} {σ : ApiState} {req : Request}
    {infraSvc hostedSvc : Service} (hres : resolvePair env σ req = .ok (infraSvc, hostedSvc))
    (hi : infraSvc.ObjectMeta.Name = "") (hh : hostedSvc.ObjectMeta.Name = "") :
    Reconcile env σ req = { result := .ret (), state := σ, calls := [] } := by
  have h1 := (IsObjectMissing_iff infraSvc).mpr hi
  have h2 := (IsObjectMissing_iff hostedSvc).mpr hh
  simp [Reconcile, hres, h1, h2]

theorem Reconcile_missing_infra {env : Env} {σ : ApiState} {req : Request}
    {infraSvc hostedSvc : Service} (hres : resolvePair env σ req = .ok (infraSvc, hostedSvc))
    (hi : infraSvc.ObjectMeta.Name = "") (hh : hostedSvc.ObjectMeta.Name ≠ "") :
    Reconcile env σ req = ReconcileMissingInfra env σ hostedSvc := by
  have h1 := (IsObjectMissing_iff infraSvc).mpr hi
  have h2 := (IsObjectMissing_eq_false_iff hostedSvc).mpr hh
  simp [Reconcile, hres, h1, h2]

theorem Reconcile_missing_hosted {env : Env} {σ : ApiState} {req : Request}
    {infraSvc hostedSvc : Service} (hres : resolvePair env σ req = .ok (infraSvc, hostedSvc))
    (hi : infraSvc.ObjectMeta.Name ≠ "") (hh : hostedSvc.ObjectMeta.Name = "") :
    Reconcile env σ req = ReconcileMissingHosted env σ infraSvc := by
  have h1 := (IsObjectMissing_eq_false_iff infraSvc).mpr hi
  have h2 := (IsObjectMissing_iff hostedSvc).mpr hh
  simp [Reconcile, hres, h1, h2]

theorem Reconcile_both_present {env : Env} {σ : ApiState} {req : Request}
    {infraSvc hostedSvc : Service} (hres : resolvePair env σ req = .ok (infraSvc, hostedSvc))
    (hi : infraSvc.ObjectMeta.Name ≠ "") (hh : hostedSvc.ObjectMeta.Name ≠ "") :
    Reconcile env σ req = ReconcileNormal env σ infraSvc hostedSvc := by
  have h1 := (IsObjectMissing_eq_false_iff infraSvc).mpr hi
  have h2 := (IsObjectMissing_eq_false_iff hostedSvc).mpr hh
  simp [Reconcile, hres, h1, h2]

/-! ### The three actions -/

/-- `ReconcileMissingInfra` issues nothing and leaves the state alone, or
issues one create of a mirror it composed and at most appends one service. -/
theorem ReconcileMissingInfra_cases (env : Env) (σ : ApiState) (hostedSvc : Service) :
    ((ReconcileMissingInfra env σ hostedSvc).calls = [] ∧
      (ReconcileMissingInfra env σ hostedSvc).state = σ ∧
      (ReconcileMissingInfra env σ hostedSvc).result ≠ .ret ()) ∨
    ∃ clusterGenName mirror,
      GetClusterGenName env σ = .ret clusterGenName ∧
      GetInfraSvcFromHostedSvc env hostedSvc clusterGenName = .val mirror ∧
      (ReconcileMissingInfra env σ hostedSvc).calls = [.infraCreate mirror] ∧
      ((ReconcileMissingInfra env σ hostedSvc).state = σ ∨
        ∃ stored, stored.ObjectMeta.Namespace = mirror.ObjectMeta.Namespace ∧
          stored.ObjectMeta.Annotations = mirror.ObjectMeta.Annotations ∧
          (ReconcileMissingInfra env σ hostedSvc).state = { σ with infra := σ.infra ++ [stored] }) := by
  cases hname : GetClusterGenName env σ with
  | fail err => left; simp [ReconcileMissingInfra, hname]
  | panic msg => left; simp [ReconcileMissingInfra, hname]
  | ret clusterGenName =>
    cases hmirror : GetInfraSvcFromHostedSvc env hostedSvc clusterGenName with
    | panic msg => left; simp [ReconcileMissingInfra, hname, hmirror]
    | val mirror =>
      right
      refine ⟨clusterGenName, mirror, rfl, hmirror, ?_⟩
      cases hcreate : clientCreate env.faults.infraCreate env.suffix σ.infra mirror with
      | error err => simp [ReconcileMissingInfra, hname, hmirror, hcreate]
      | ok infra =>
        obtain ⟨stored, hns, hann, hinfra⟩ := clientCreate_ok hcreate
        refine ⟨by simp [ReconcileMissingInfra, hname, hmirror, hcreate], Or.inr ⟨stored, hns, hann, ?_⟩⟩
        simp [ReconcileMissingInfra, hname, hmirror, hcreate, hinfra]

/-- `ReconcileMissingHosted` issues exactly one delete, and the infra services
it leaves are among those it found. -/
theorem ReconcileMissingHosted_cases (env : Env) (σ : ApiState) (infraSvc : Service) :
    (ReconcileMissingHosted env σ infraSvc).calls = [.infraDelete infraSvc] ∧
    ((ReconcileMissingHosted env σ infraSvc).state = σ ∨
      ∃ keep : Service → Bool,
        (ReconcileMissingHosted env σ infraSvc).state = { σ with infra := σ.infra.filter keep }) := by
  cases hdel : clientDelete env.faults.infraDelete σ.infra infraSvc with
  | error err => simp [ReconcileMissingHosted, hdel]
  | ok infra =>
    obtain ⟨keep, hkeep⟩ := clientDelete_ok hdel
    refine ⟨by simp [ReconcileMissingHosted, hdel], Or.inr ⟨keep, ?_⟩⟩
    simp [ReconcileMissingHosted, hdel, hkeep]

/-- `ReconcileNormal` never touches the infra services. -/
theorem ReconcileNormal_infra (env : Env) (σ : ApiState) (infraSvc hostedSvc : Service) :
    (ReconcileNormal env σ infraSvc hostedSvc).state.infra = σ.infra ∧
    ∀ obj, Call.infraCreate obj ∉ (ReconcileNormal env σ infraSvc hostedSvc).calls := by
  unfold ReconcileNormal
  split
  · simp
  · simp only
    split <;> simp

/-! ### A second run after a status update -/

/-- The stored objects after an accepted status update of `obj`. -/
theorem clientStatusUpdate_ok {fault : Option ApiError} {store store' : List Service}
    {obj : Service} (h : clientStatusUpdate fault store obj = .ok store') :
    store' = store.map (statusUpdated obj) := by
  unfold clientStatusUpdate at h
  cases fault with
  | some err => simp at h
  | none =>
    simp only at h
    split at h
    · simp only [Except.ok.injEq] at h
      exact h.symm
    · simp at h

/-- A `Get` that found `found` finds, after an accepted status update of an
object `upd` that has the metadata and the spec of `found`, the object `upd`. -/
theorem clientGet_after_statusUpdate {fault : Option ApiError} {store : List Service}
    {key : NamespacedName} {found upd : Service}
    (hget : clientGet fault store key = .ok found)
    (hmeta : upd.ObjectMeta = found.ObjectMeta) (hspec : upd.Spec = found.Spec) :
    clientGet fault (store.map (statusUpdated upd)) key = .ok upd := by
  obtain ⟨hfault, hfind⟩ := clientGet_ok hget
  subst hfault
  have hcomp : (sameKey key ∘ statusUpdated upd) = sameKey key := by
    funext s
    simp only [Function.comp, statusUpdated]
    split <;> rfl
  have hself : sameKey (keyOf upd) found = true := by
    simp [sameKey, keyOf, hmeta]
  have hupd : ({ found with Status := upd.Status } : Service) = upd := by
    cases upd
    cases found
    simp_all
  simp only [clientGet, List.find?_map, hcomp, hfind, Option.map_some', statusUpdated, hself,
    if_true, hupd]

theorem withIngress_idem (svc : Service) (ingress : List LoadBalancerIngress) :
    withIngress (withIngress svc ingress) ingress = withIngress svc ingress := rfl

theorem getOrZero_ok {got : Except ApiError Service} {obj : Service}
    (h : getOrZero got = .ok obj) : got = .ok obj ∨ obj = {} := by
  unfold getOrZero at h
  cases got with
  | ok found =>
    simp only [Except.ok.injEq] at h
    exact Or.inl (by rw [h])
  | error err =>
    simp only at h
    split at h
    · simp at h
    · simp only [Except.ok.injEq] at h
      exact Or.inr h.symm

theorem getOrZero_ok_named {got : Except ApiError Service} {obj : Service}
    (h : getOrZero got = .ok obj) (hname : obj.ObjectMeta.Name ≠ "") : got = .ok obj := by
  rcases getOrZero_ok h with hgot | hzero
  · exact hgot
  · exact absurd (by rw [hzero]) hname

/-- What a successful resolution of a hosted request is made of. -/
theorem GetSvcsFromHostedReconclie_ok {env : Env} {σ : ApiState} {req : Request}
    {infraSvc hostedSvc : Service}
    (h : GetSvcsFromHostedReconclie env σ req = .ok (infraSvc, hostedSvc)) :
    getOrZero (clientGet env.faults.hostedGet σ.hosted req) = .ok hostedSvc ∧
    findSyncedSvc env σ req = .ok infraSvc := by
  unfold GetSvcsFromHostedReconclie at h
  cases hget : getOrZero (clientGet env.faults.hostedGet σ.hosted req) with
  | error err => simp [hget] at h
  | ok obj =>
    cases hfind : findSyncedSvc env σ req with
    | error err => simp [hget, hfind] at h
    | ok found =>
      simp only [hget, hfind, Except.ok.injEq, Prod.mk.injEq] at h
      rw [h.1, h.2]
      exact ⟨rfl, rfl⟩

/-- What a successful resolution of an infra request is made of. -/
theorem GetSvcsFromInfraReconclie_ok {env : Env} {σ : ApiState} {req : Request}
    {infraSvc hostedSvc : Service}
    (h : GetSvcsFromInfraReconclie env σ req = .ok (infraSvc, hostedSvc)) :
    getOrZero (clientGet env.faults.infraGet σ.infra req) = .ok infraSvc ∧
    getOrZero (clientGet env.faults.hostedGet σ.hosted (sourceOf infraSvc)) = .ok hostedSvc := by
  unfold GetSvcsFromInfraReconclie at h
  cases hget : getOrZero (clientGet env.faults.infraGet σ.infra req) with
  | error err => simp [hget] at h
  | ok mirror =>
    simp only [hget] at h
    cases hget2 : getOrZero (clientGet env.faults.hostedGet σ.hosted (sourceOf mirror)) with
    | error err =>
      unfold sourceOf at hget2
      simp [hget2] at h
    | ok obj =>
      unfold sourceOf at hget2
      simp only [hget2, Except.ok.injEq, Prod.mk.injEq] at h
      obtain ⟨hi, ho⟩ := h
      subst hi ho
      exact ⟨rfl, hget2⟩

/-- Pair resolution that found a hosted service finds, after an accepted status
update of that service, the same mirror and the updated hosted service. -/
theorem resolvePair_after_statusUpdate {env : Env} {σ : ApiState} {req : Request}
    {infraSvc hostedSvc upd : Service}
    (hres : resolvePair env σ req = .ok (infraSvc, hostedSvc))
    (hh : hostedSvc.ObjectMeta.Name ≠ "")
    (hmeta : upd.ObjectMeta = hostedSvc.ObjectMeta) (hspec : upd.Spec = hostedSvc.Spec) :
    resolvePair env { σ with hosted := σ.hosted.map (statusUpdated upd) } req =
      .ok (infraSvc, upd) := by
  unfold resolvePair at hres ⊢
  split at hres
  next horigin =>
    rw [if_pos horigin]
    obtain ⟨hget, hfind⟩ := GetSvcsFromHostedReconclie_ok hres
    have hget' := clientGet_after_statusUpdate (getOrZero_ok_named hget hh) hmeta hspec
    have hfind' : findSyncedSvc env { σ with hosted := σ.hosted.map (statusUpdated upd) }
        req = .ok infraSvc := hfind
    simp only [GetSvcsFromHostedReconclie, hget', hfind', getOrZero]
  next horigin =>
    rw [if_neg horigin]
    obtain ⟨hget, hget2⟩ := GetSvcsFromInfraReconclie_ok hres
    have hget2' := clientGet_after_statusUpdate (getOrZero_ok_named hget2 hh) hmeta hspec
    unfold sourceOf at hget2'
    simp only [GetSvcsFromInfraReconclie, hget]
    simp only [hget2', getOrZero]

/-- `Reconcile` fails in pair resolution or runs one of its four branches. -/
theorem Reconcile_cases (env : Env) (σ : ApiState) (req : Request) :
    (∃ err, resolvePair env σ req = .error err ∧
      Reconcile env σ req = { result := .fail err, state := σ, calls := [] }) ∨
    ∃ infraSvc hostedSvc, resolvePair env σ req = .ok (infraSvc, hostedSvc) ∧
      ((infraSvc.ObjectMeta.Name = "" ∧ hostedSvc.ObjectMeta.Name = "" ∧
          Reconcile env σ req = { result := .ret (), state := σ, calls := [] }) ∨
        (infraSvc.ObjectMeta.Name = "" ∧ hostedSvc.ObjectMeta.Name ≠ "" ∧
          Reconcile env σ req = ReconcileMissingInfra env σ hostedSvc) ∨
        (infraSvc.ObjectMeta.Name ≠ "" ∧ hostedSvc.ObjectMeta.Name = "" ∧
          Reconcile env σ req = ReconcileMissingHosted env σ infraSvc) ∨
        (infraSvc.ObjectMeta.Name ≠ "" ∧ hostedSvc.ObjectMeta.Name ≠ "" ∧
          Reconcile env σ req = ReconcileNormal env σ infraSvc hostedSvc)) := by
  cases hres : resolvePair env σ req with
  | error err => exact Or.inl ⟨err, rfl, Reconcile_of_resolve_error hres⟩
  | ok pair =>
    obtain ⟨infraSvc, hostedSvc⟩ := pair
    refine Or.inr ⟨infraSvc, hostedSvc, rfl, ?_⟩
    by_cases hi : infraSvc.ObjectMeta.Name = "" <;> by_cases hh : hostedSvc.ObjectMeta.Name = ""
    · exact Or.inl ⟨hi, hh, Reconcile_both_missing hres hi hh⟩
    · exact Or.inr (Or.inl ⟨hi, hh, Reconcile_missing_infra hres hi hh⟩)
    · exact Or.inr (Or.inr (Or.inl ⟨hi, hh, Reconcile_missing_hosted hres hi hh⟩))
    · exact Or.inr (Or.inr (Or.inr ⟨hi, hh, Reconcile_both_present hres hi hh⟩))

/-- `ReconcileNormal` does nothing for a hosted service with an ingress, and
otherwise submits the hosted service with the mirror's ingress; an accepted
update is applied to the stored hosted services. -/
theorem ReconcileNormal_cases (env : Env) (σ : ApiState) (infraSvc hostedSvc : Service) :
    (hostedSvc.Status.LoadBalancer.Ingress ≠ [] ∧
      ReconcileNormal env σ infraSvc hostedSvc = { result := .ret (), state := σ, calls := [] }) ∨
    (hostedSvc.Status.LoadBalancer.Ingress = [] ∧
      (ReconcileNormal env σ infraSvc hostedSvc).calls =
        [.hostedStatusUpdate (withIngress hostedSvc infraSvc.Status.LoadBalancer.Ingress)] ∧
      ((ReconcileNormal env σ infraSvc hostedSvc).result = .ret () →
        (ReconcileNormal env σ infraSvc hostedSvc).state =
          { σ with hosted := (σ.hosted.map
              (statusUpdated (withIngress hostedSvc infraSvc.Status.LoadBalancer.Ingress))) })) := by
  by_cases hnil : hostedSvc.Status.LoadBalancer.Ingress = []
  · right
    refine ⟨hnil, ?_⟩
    cases hupd : clientStatusUpdate env.faults.hostedStatusUpdate σ.hosted
        (withIngress hostedSvc infraSvc.Status.LoadBalancer.Ingress) with
    | error err => simp [ReconcileNormal, hnil, hupd]
    | ok hosted =>
      have hmap := clientStatusUpdate_ok hupd
      simp [ReconcileNormal, hnil, hupd, hmap]
  · left
    have hlen : hostedSvc.Status.LoadBalancer.Ingress.length ≠ 0 := by
      simpa [List.length_eq_zero] using hnil
    exact ⟨hnil, by simp [ReconcileNormal, hlen]⟩

/-- A run that issues no request leaves the API state as it found it. -/
theorem Reconcile_state_of_no_calls {env : Env} {σ : ApiState} {req : Request}
    (h : (Reconcile env σ req).calls = []) : (Reconcile env σ req).state = σ := by
  rcases Reconcile_cases env σ req with ⟨err, _, hrun⟩ | ⟨infraSvc, hostedSvc, _, hcase⟩
  · rw [hrun]
  · rcases hcase with ⟨_, _, hrun⟩ | ⟨_, _, hrun⟩ | ⟨_, _, hrun⟩ | ⟨_, _, hrun⟩
    · rw [hrun]
    · rw [hrun] at h ⊢
      rcases ReconcileMissingInfra_cases env σ hostedSvc with ⟨_, hstate, _⟩ | ⟨_, _, _, _, hc, _⟩
      · exact hstate
      · rw [hc] at h
        cases h
    · rw [hrun] at h
      rw [(ReconcileMissingHosted_cases env σ infraSvc).1] at h
      cases h
    · rw [hrun] at h ⊢
      rcases ReconcileNormal_cases env σ infraSvc hostedSvc with ⟨_, hno⟩ | ⟨_, hc, _⟩
      · rw [hno]
      · rw [hc] at h
        cases h

/-- A run that issues a status update is the status propagation of a resolved
pair, both present, the hosted service without an ingress. -/
theorem Reconcile_of_statusUpdate {env : Env} {σ : ApiState} {req : Request} {upd : Service}
    (h : (Reconcile env σ req).calls = [.hostedStatusUpdate upd]) :
    ∃ infraSvc hostedSvc, resolvePair env σ req = .ok (infraSvc, hostedSvc) ∧
      infraSvc.ObjectMeta.Name ≠ "" ∧ hostedSvc.ObjectMeta.Name ≠ "" ∧
      hostedSvc.Status.LoadBalancer.Ingress = [] ∧
      upd = withIngress hostedSvc infraSvc.Status.LoadBalancer.Ingress ∧
      Reconcile env σ req = ReconcileNormal env σ infraSvc hostedSvc := by
  rcases Reconcile_cases env σ req with ⟨err, _, hrun⟩ | ⟨infraSvc, hostedSvc, hres, hcase⟩
  · rw [hrun] at h
    cases h
  · rcases hcase with ⟨_, _, hrun⟩ | ⟨_, _, hrun⟩ | ⟨_, _, hrun⟩ | ⟨hi, hh, hrun⟩
    · rw [hrun] at h
      cases h
    · rw [hrun] at h
      rcases ReconcileMissingInfra_cases env σ hostedSvc with ⟨hc, _, _⟩ | ⟨_, _, _, _, hc, _⟩
      · rw [hc] at h
        cases h
      · rw [hc] at h
        cases h
    · rw [hrun, (ReconcileMissingHosted_cases env σ infraSvc).1] at h
      cases h
    · rw [hrun] at h
      rcases ReconcileNormal_cases env σ infraSvc hostedSvc with ⟨_, hno⟩ | ⟨hnil, hc, _⟩
      · rw [hno] at h
        cases h
      · rw [hc] at h
        simp only [List.cons.injEq, Call.hostedStatusUpdate.injEq, and_true] at h
        exact ⟨infraSvc, hostedSvc, hres, hi, hh, hnil, h.symm, hrun⟩

/-! ### Mirror uniqueness -/

/-- The mirror composed for a hosted service lives in the agent's namespace
and names that hosted service in its source annotations. -/
theorem GetInfraSvcFromHostedSvc_val {env : Env} {hostedSvc mirror : Service}
    {clusterGenName : String}
    (h : GetInfraSvcFromHostedSvc env hostedSvc clusterGenName = .val mirror) :
    mirror.ObjectMeta.Namespace = GetCurrentNs env ∧ sourceOf mirror = keyOf hostedSvc := by
  have hne : ( SyncSvcNamespaceAnnotation == SyncSvcNameAnnotation) = false := by decide
  unfold GetInfraSvcFromHostedSvc at h
  cases hp : hostedSvc.Spec.Ports with
  | nil => simp [hp] at h
  | cons port0 rest =>
    simp only [hp, MayPanic.val.injEq] at h
    subst h
    exact ⟨rfl, by simp [sourceOf, keyOf, index, List.lookup, hne]⟩

theorem GetInfraSvcFromHostedSvc_val_isMirror {env : Env} {hostedSvc mirror : Service}
    {clusterGenName : String}
    (h : GetInfraSvcFromHostedSvc env hostedSvc clusterGenName = .val mirror) :
    isMirror env mirror = true := by
  have hne : ( SyncSvcNamespaceAnnotation == SyncSvcNameAnnotation) = false := by decide
  unfold GetInfraSvcFromHostedSvc at h
  cases hp : hostedSvc.Spec.Ports with
  | nil => simp [hp] at h
  | cons port0 rest =>
    simp only [hp, MayPanic.val.injEq] at h
    subst h
    simp [isMirror, carriesSource, List.lookup, hne]

theorem UniqueAmong_filter {counted : Service → Bool} {infra : List Service}
    (keep : Service → Bool) (h : UniqueAmong counted infra) :
    UniqueAmong counted (infra.filter keep) := by
  unfold UniqueAmong at h ⊢
  refine List.Nodup.sublist ?_ h
  refine List.Sublist.map _ ?_
  exact List.Sublist.filter _ (List.filter_sublist infra)

theorem UniqueAmong_append {counted : Service → Bool} {infra : List Service} {stored : Service}
    (h : UniqueAmong counted infra) (hnew : ∀ s ∈ infra, sourceOf s ≠ sourceOf stored) :
    UniqueAmong counted (infra ++ [stored]) := by
  unfold UniqueAmong at h ⊢
  rw [List.filter_append, List.map_append, List.nodup_append]
  refine ⟨h, ?_, ?_⟩
  · have hsub : List.Sublist (List.map sourceOf (List.filter counted [stored]))
        (List.map sourceOf [stored]) :=
      List.Sublist.map _ (List.filter_sublist _)
    exact List.Nodup.sublist hsub (List.nodup_singleton _)
  · intro a ha hb
    obtain ⟨s, hs, rfl⟩ := List.mem_map.mp ha
    obtain ⟨t, ht, hst⟩ := List.mem_map.mp hb
    have ht2 : t = stored := by
      have := List.mem_of_mem_filter ht
      simpa using this
    subst ht2
    exact hnew s (List.mem_of_mem_filter hs) hst.symm

theorem mirrorCount_filter_le (env : Env) (infra : List Service) (keep : Service → Bool)
    (key : NamespacedName) :
    mirrorCount env (infra.filter keep) key ≤ mirrorCount env infra key := by
  unfold mirrorCount
  exact List.Sublist.countP_le _ (List.Sublist.filter _ (List.filter_sublist infra))

theorem mirrorCount_append_le {env : Env} {infra : List Service} {stored : Service}
    (hnew : ∀ s ∈ infra, sourceOf s ≠ sourceOf stored) (key : NamespacedName)
    (h : mirrorCount env infra key ≤ 1) : mirrorCount env (infra ++ [stored]) key ≤ 1 := by
  unfold mirrorCount at h ⊢
  rw [List.filter_append, List.countP_append]
  have hone : (List.filter (isMirror env) [stored]).countP
      (fun s => decide (sourceOf s = key)) ≤ 1 := by
    refine le_trans (List.countP_le_length _) ?_
    exact le_trans (List.length_filter_le _ _) (by simp)
  by_cases hkey : sourceOf stored = key
  · have hzero : (List.filter (isMirror env) infra).countP
        (fun s => decide (sourceOf s = key)) = 0 := by
      rw [List.countP_eq_zero]
      intro s hs
      have hne := hnew s (List.mem_of_mem_filter hs)
      rw [hkey] at hne
      simpa using hne
    omega
  · have hzero : (List.filter (isMirror env) [stored]).countP
        (fun s => decide (sourceOf s = key)) = 0 := by
      rw [List.countP_eq_zero]
      intro s hs
      have hmem := List.mem_of_mem_filter hs
      simp only [List.mem_singleton] at hmem
      rw [hmem]
      simpa using hkey
    omega

/-- With every listed service named, a mirror that `findSyncedSvc` reports
missing means that no listed service names the request as its source. -/
theorem findSyncedSvc_missing {env : Env} {σ : ApiState} {req : Request} {svc : Service}
    (hnamed : ∀ s ∈ σ.infra, s.ObjectMeta.Name ≠ "")
    (h : findSyncedSvc env σ req = .ok svc) (hmissing : svc.ObjectMeta.Name = "") :
    ∀ s ∈ σ.infra, sourceOf s ≠ req := by
  rcases findSyncedSvc_cases h with ⟨_, hnone⟩ | ⟨hmem, _⟩
  · exact hnone
  · exact absurd hmissing (hnamed svc hmem)

/-- With every infra service named, a resolution that finds the hosted service
and no mirror is a resolution of a hosted request: the hosted service is the
requested one and no listed infra service names it as its source. -/
theorem resolvePair_missing_infra {env : Env} {σ : ApiState} {req : Request}
    {infraSvc hostedSvc : Service}
    (hnamed : ∀ s ∈ σ.infra, s.ObjectMeta.Name ≠ "")
    (hres : resolvePair env σ req = .ok (infraSvc, hostedSvc))
    (hi : infraSvc.ObjectMeta.Name = "") (hh : hostedSvc.ObjectMeta.Name ≠ "") :
    req.Namespace ≠ GetCurrentNs env ∧ keyOf hostedSvc = req ∧
      ∀ s ∈ σ.infra, sourceOf s ≠ req := by
  unfold resolvePair at hres
  split at hres
  next horigin =>
    obtain ⟨hget, hfind⟩ := GetSvcsFromHostedReconclie_ok hres
    obtain ⟨_, hns, hname⟩ := clientGet_ok_mem (getOrZero_ok_named hget hh)
    refine ⟨horigin, ?_, findSyncedSvc_missing hnamed hfind hi⟩
    cases req
    simp_all [keyOf]
  next horigin =>
    exfalso
    obtain ⟨hget, hget2⟩ := GetSvcsFromInfraReconclie_ok hres
    rcases getOrZero_ok hget with hfound | hzero
    · exact hnamed _ (clientGet_ok_mem hfound).1 hi
    · obtain ⟨_, _, hname⟩ := clientGet_ok_mem (getOrZero_ok_named hget2 hh)
      rw [hzero] at hname
      exact hh hname

/-! ### A second run after a create or a delete -/

theorem append_dash_suffix_ne_empty (name suffix : String) : (name ++ "-") ++ suffix ≠ "" := by
  intro h
  have hlen := congrArg String.length h
  simp [String.length_append] at hlen
  exact absurd hlen.1.2 (by decide)

/-- The object an accepted `Create` of an unnamed object stores. -/
theorem clientCreate_ok_unnamed {fault : Option ApiError} {suffix : String}
    {store store' : List Service} {obj : Service}
    (h : clientCreate fault suffix store obj = .ok store') (hname : obj.ObjectMeta.Name = "") :
    ∃ stored, store' = store ++ [stored] ∧
      stored.ObjectMeta.Name = obj.ObjectMeta.GenerateName ++ suffix ∧
      stored.ObjectMeta.Annotations = obj.ObjectMeta.Annotations ∧
      stored.Status = obj.Status := by
  unfold clientCreate at h
  cases fault with
  | some err => simp at h
  | none =>
    simp only [hname, if_true, true_and] at h
    repeat' split at h
    all_goals first
      | (simp at h; done)
      | (simp only [Except.ok.injEq] at h; refine ⟨_, h.symm, ?_, ?_, ?_⟩ <;> rfl)

/-- The stored objects after an accepted `Delete`. -/
theorem clientDelete_ok_eq {fault : Option ApiError} {store store' : List Service}
    {obj : Service} (h : clientDelete fault store obj = .ok store') :
    store' = store.filter (fun s => !sameKey (keyOf obj) s) := by
  unfold clientDelete at h
  cases fault with
  | some err => simp at h
  | none =>
    simp only at h
    split at h
    · simp only [Except.ok.injEq] at h
      exact h.symm
    · simp at h

/-- The composed mirror is unnamed, has the hosted name and a dash as its
generateName, and no status. -/
theorem GetInfraSvcFromHostedSvc_val_meta {env : Env} {hostedSvc mirror : Service}
    {clusterGenName : String}
    (h : GetInfraSvcFromHostedSvc env hostedSvc clusterGenName = .val mirror) :
    mirror.ObjectMeta.Name = "" ∧
      mirror.ObjectMeta.GenerateName = hostedSvc.ObjectMeta.Name ++ "-" ∧
      mirror.Status = {} := by
  unfold GetInfraSvcFromHostedSvc at h
  cases hp : hostedSvc.Spec.Ports with
  | nil => simp [hp] at h
  | cons port0 rest =>
    simp only [hp, MayPanic.val.injEq] at h
    subst h
    exact ⟨rfl, rfl, rfl⟩

/-- A run whose resolution finds no hosted service issues nothing or one
delete. -/
theorem Reconcile_calls_of_hosted_missing {env : Env} {σ : ApiState} {req : Request}
    {infraSvc hostedSvc : Service}
    (hres : resolvePair env σ req = .ok (infraSvc, hostedSvc))
    (hh : hostedSvc.ObjectMeta.Name = "") :
    (Reconcile env σ req).calls = [] ∨
      (Reconcile env σ req).calls = [.infraDelete infraSvc] := by
  by_cases hi : infraSvc.ObjectMeta.Name = ""
  · left
    rw [Reconcile_both_missing hres hi hh]
  · right
    rw [Reconcile_missing_hosted hres hi hh]
    exact (ReconcileMissingHosted_cases env σ infraSvc).1

/-! ### A second run, with its own list order -/

theorem GetCurrentNs_withOrder (env : Env) (order : ListOrder) :
    GetCurrentNs (withOrder env order) = GetCurrentNs env := rfl

/-- Pair resolution under another order of the List call finds the same
hosted service, and finds a mirror exactly when it found one before. -/
theorem resolvePair_reorder {env : Env} {σ : ApiState} {req : Request}
    {infraSvc hostedSvc : Service} (order : ListOrder)
    (hnamed : ∀ s ∈ σ.infra, s.ObjectMeta.Name ≠ "")
    (hres : resolvePair env σ req = .ok (infraSvc, hostedSvc)) :
    ∃ infraSvc2, resolvePair (withOrder env order) σ req = .ok (infraSvc2, hostedSvc) ∧
      (infraSvc2.ObjectMeta.Name = "" ↔ infraSvc.ObjectMeta.Name = "") := by
  unfold resolvePair at hres ⊢
  rw [GetCurrentNs_withOrder]
  by_cases horigin : req.Namespace ≠ GetCurrentNs env
  · rw [if_pos horigin] at hres ⊢
    obtain ⟨hget, hfind⟩ := GetSvcsFromHostedReconclie_ok hres
    have hfault0 : env.faults.infraList = none := findSyncedSvc_fault hfind
    have hfault : (withOrder env order).faults.infraList = none := hfault0
    obtain ⟨infraSvc2, hfind2⟩ : ∃ found, findSyncedSvc (withOrder env order) σ req = .ok found :=
      ⟨_, findSyncedSvc_eq σ req hfault⟩
    have hget2 : getOrZero (clientGet (withOrder env order).faults.hostedGet σ.hosted req) =
        .ok hostedSvc := hget
    refine ⟨infraSvc2, by simp only [GetSvcsFromHostedReconclie, hget2, hfind2], ?_⟩
    rcases findSyncedSvc_cases hfind with ⟨hz, hnone⟩ | ⟨hmem, s, hs, hsrc⟩ <;>
      rcases findSyncedSvc_cases hfind2 with ⟨hz2, hnone2⟩ | ⟨hmem2, s2, hs2, hsrc2⟩
    · rw [hz, hz2]
    · exact absurd hsrc2 (hnone s2 hs2)
    · exact absurd hsrc (hnone2 s hs)
    · exact ⟨fun h0 => absurd h0 (hnamed _ hmem2), fun h0 => absurd h0 (hnamed _ hmem)⟩
  · rw [if_neg horigin] at hres ⊢
    exact ⟨infraSvc, hres, Iff.rfl⟩

/-- After a successful run that issued no request, the next run of the
request issues none, whatever order its List call comes in. -/
theorem Reconcile_rerun_after_quiet {env : Env} {σ : ApiState} {req : Request}
    (order : ListOrder) (hnamed : ∀ s ∈ σ.infra, s.ObjectMeta.Name ≠ "")
    (hok : (Reconcile env σ req).result = .ret ())
    (hcalls : (Reconcile env σ req).calls = []) :
    (Reconcile (withOrder env order) (Reconcile env σ req).state req).calls = [] := by
  rw [Reconcile_state_of_no_calls hcalls]
  rcases Reconcile_cases env σ req with ⟨err, _, hrun⟩ | ⟨infraSvc, hostedSvc, hres, hcase⟩
  · rw [hrun] at hok
    cases hok
  · obtain ⟨infraSvc2, hres2, hpres⟩ := resolvePair_reorder order hnamed hres
    rcases hcase with ⟨hi, hh, _⟩ | ⟨hi, hh, hrun⟩ | ⟨hi, hh, hrun⟩ | ⟨hi, hh, hrun⟩
    · rw [Reconcile_both_missing hres2 (hpres.mpr hi) hh]
    · exfalso
      rw [hrun] at hok hcalls
      rcases ReconcileMissingInfra_cases env σ hostedSvc with ⟨_, _, hne⟩ | ⟨_, _, _, _, hc, _⟩
      · exact hne hok
      · rw [hc] at hcalls
        cases hcalls
    · exfalso
      rw [hrun, (ReconcileMissingHosted_cases env σ infraSvc).1] at hcalls
      cases hcalls
    · have hi2 : infraSvc2.ObjectMeta.Name ≠ "" := fun h0 => hi (hpres.mp h0)
      rw [Reconcile_both_present hres2 hi2 hh]
      rw [hrun] at hcalls
      rcases ReconcileNormal_cases env σ infraSvc hostedSvc with ⟨hne, _⟩ | ⟨_, hc, _⟩
      · rcases ReconcileNormal_cases (withOrder env order) σ infraSvc2 hostedSvc with
          ⟨_, hno⟩ | ⟨hnil, _, _⟩
        · rw [hno]
        · exact absurd hnil hne
      · rw [hc] at hcalls
        cases hcalls

/-- After a run that submitted an accepted status update, the next run of the
request issues nothing when the update carried an ingress, and submits a
status update for the same hosted service when it carried none. -/
theorem Reconcile_rerun_after_statusUpdate {env : Env} {σ : ApiState} {req : Request}
    {upd : Service} (order : ListOrder) (hnamed : ∀ s ∈ σ.infra, s.ObjectMeta.Name ≠ "")
    (hok : (Reconcile env σ req).result = .ret ())
    (hcalls : (Reconcile env σ req).calls = [.hostedStatusUpdate upd]) :
    (upd.Status.LoadBalancer.Ingress ≠ [] →
      (Reconcile (withOrder env order) (Reconcile env σ req).state req).calls = []) ∧
    (upd.Status.LoadBalancer.Ingress = [] →
      ∃ upd2, (Reconcile (withOrder env order) (Reconcile env σ req).state req).calls =
          [.hostedStatusUpdate upd2] ∧
        upd2.ObjectMeta = upd.ObjectMeta ∧ upd2.Spec = upd.Spec) := by
  obtain ⟨infraSvc, hostedSvc, hres, hi, hh, hnil, hupd, hrun⟩ := Reconcile_of_statusUpdate hcalls
  have hstate : (Reconcile env σ req).state =
      { σ with hosted := σ.hosted.map (statusUpdated upd) } := by
    rcases ReconcileNormal_cases env σ infraSvc hostedSvc with ⟨hne, _⟩ | ⟨_, _, hst⟩
    · exact absurd hnil hne
    · rw [hrun] at hok ⊢
      rw [hupd]
      exact hst hok
  have hmeta : upd.ObjectMeta = hostedSvc.ObjectMeta := by rw [hupd]; rfl
  have hspec : upd.Spec = hostedSvc.Spec := by rw [hupd]; rfl
  have hres2 := resolvePair_after_statusUpdate hres hh hmeta hspec
  have hh2 : upd.ObjectMeta.Name ≠ "" := by rw [hmeta]; exact hh
  have hnamed2 : ∀ s ∈ ({ σ with hosted := σ.hosted.map (statusUpdated upd) } : ApiState).infra,
      s.ObjectMeta.Name ≠ "" := hnamed
  obtain ⟨infraSvc2, hres3, hpres⟩ := resolvePair_reorder order hnamed2 hres2
  have hi2 : infraSvc2.ObjectMeta.Name ≠ "" := fun h0 => hi (hpres.mp h0)
  rw [hstate, Reconcile_both_present hres3 hi2 hh2]
  rcases ReconcileNormal_cases (withOrder env order)
      { σ with hosted := σ.hosted.map (statusUpdated upd) } infraSvc2 upd with
    ⟨hne, hno⟩ | ⟨hnil2, hc, _⟩
  · exact ⟨fun _ => by rw [hno], fun hempty => absurd hempty hne⟩
  · exact ⟨fun hne => absurd hnil2 hne, fun _ => ⟨_, hc, rfl, rfl⟩⟩

/-- After a run that created a mirror, the next run of the request finds both
services and at most submits a status update. -/
theorem Reconcile_rerun_after_create {env : Env} {σ : ApiState} {req : Request}
    {infraSvc hostedSvc : Service} (order : ListOrder)
    (hnamed : ∀ s ∈ σ.infra, s.ObjectMeta.Name ≠ "")
    (hres : resolvePair env σ req = .ok (infraSvc, hostedSvc))
    (hi : infraSvc.ObjectMeta.Name = "") (hh : hostedSvc.ObjectMeta.Name ≠ "")
    (hok : (ReconcileMissingInfra env σ hostedSvc).result = .ret ()) :
    (Reconcile (withOrder env order) (ReconcileMissingInfra env σ hostedSvc).state req).calls =
        [] ∨
    ∃ upd, (Reconcile (withOrder env order)
        (ReconcileMissingInfra env σ hostedSvc).state req).calls = [.hostedStatusUpdate upd] := by
  obtain ⟨horigin, hkey, _⟩ := resolvePair_missing_infra hnamed hres hi hh
  have hres1 := hres
  unfold resolvePair at hres1
  rw [if_pos horigin] at hres1
  obtain ⟨hget, hfind⟩ := GetSvcsFromHostedReconclie_ok hres1
  have hfault0 : env.faults.infraList = none := findSyncedSvc_fault hfind
  have hfault : (withOrder env order).faults.infraList = none := hfault0
  cases hname : GetClusterGenName env σ with
  | fail err => simp [ReconcileMissingInfra, hname] at hok
  | panic msg => simp [ReconcileMissingInfra, hname] at hok
  | ret clusterGenName =>
    cases hmirror : GetInfraSvcFromHostedSvc env hostedSvc clusterGenName with
    | panic msg => simp [ReconcileMissingInfra, hname, hmirror] at hok
    | val mirror =>
      cases hcreate : clientCreate env.faults.infraCreate env.suffix σ.infra mirror with
      | error err => simp [ReconcileMissingInfra, hname, hmirror, hcreate] at hok
      | ok infra =>
        obtain ⟨hunnamed, hgen, _⟩ := GetInfraSvcFromHostedSvc_val_meta hmirror
        obtain ⟨_, hsrc⟩ := GetInfraSvcFromHostedSvc_val hmirror
        obtain ⟨stored, hinfra, hsname, hsann, _⟩ := clientCreate_ok_unnamed hcreate hunnamed
        have hstate : (ReconcileMissingInfra env σ hostedSvc).state =
            { σ with infra := σ.infra ++ [stored] } := by
          simp [ReconcileMissingInfra, hname, hmirror, hcreate, hinfra]
        rw [hstate]
        have hstoredSrc : sourceOf stored = req := by
          rw [← hkey, ← hsrc]
          simp only [sourceOf, hsann]
        have hstoredName : stored.ObjectMeta.Name ≠ "" := by
          rw [hsname, hgen]
          exact append_dash_suffix_ne_empty _ _
        have hnamed2 : ∀ s ∈ σ.infra ++ [stored], s.ObjectMeta.Name ≠ "" := by
          intro s hs
          rcases List.mem_append.mp hs with h1 | h1
          · exact hnamed s h1
          · rw [List.mem_singleton.mp h1]
            exact hstoredName
        obtain ⟨infraSvc2, hfind2⟩ : ∃ found, findSyncedSvc (withOrder env order)
            { σ with infra := σ.infra ++ [stored] } req = .ok found :=
          ⟨_, findSyncedSvc_eq _ req hfault⟩
        have hi2 : infraSvc2.ObjectMeta.Name ≠ "" := by
          rcases findSyncedSvc_cases hfind2 with ⟨_, hnone⟩ | ⟨hmem, _⟩
          · exact absurd hstoredSrc (hnone stored (by simp))
          · exact hnamed2 _ hmem
        have hget2 : getOrZero (clientGet (withOrder env order).faults.hostedGet
            ({ σ with infra := σ.infra ++ [stored] } : ApiState).hosted req) =
            .ok hostedSvc := hget
        have hres2 : resolvePair (withOrder env order) { σ with infra := σ.infra ++ [stored] }
            req = .ok (infraSvc2, hostedSvc) := by
          unfold resolvePair
          rw [GetCurrentNs_withOrder, if_pos horigin]
          simp only [GetSvcsFromHostedReconclie, hget2, hfind2]
        rw [Reconcile_both_present hres2 hi2 hh]
        rcases ReconcileNormal_cases (withOrder env order)
            { σ with infra := σ.infra ++ [stored] } infraSvc2 hostedSvc with
          ⟨_, hno⟩ | ⟨_, hc, _⟩
        · left
          rw [hno]
        · right
          exact ⟨_, hc⟩

/-- After a run that deleted a mirror, the next run of the request still finds
no hosted service: it issues nothing or one delete. -/
theorem Reconcile_rerun_after_delete {env : Env} {σ : ApiState} {req : Request}
    {infraSvc hostedSvc : Service} (order : ListOrder)
    (hres : resolvePair env σ req = .ok (infraSvc, hostedSvc))
    (hi : infraSvc.ObjectMeta.Name ≠ "") (hh : hostedSvc.ObjectMeta.Name = "")
    (hok : (ReconcileMissingHosted env σ infraSvc).result = .ret ()) :
    (Reconcile (withOrder env order) (ReconcileMissingHosted env σ infraSvc).state req).calls =
        [] ∨
    ∃ obj, (Reconcile (withOrder env order)
        (ReconcileMissingHosted env σ infraSvc).state req).calls = [.infraDelete obj] := by
  cases hdel : clientDelete env.faults.infraDelete σ.infra infraSvc with
  | error err => simp [ReconcileMissingHosted, hdel] at hok
  | ok infra =>
    have hinfra := clientDelete_ok_eq hdel
    have hstate : (ReconcileMissingHosted env σ infraSvc).state = { σ with infra := infra } := by
      simp [ReconcileMissingHosted, hdel]
    rw [hstate]
    cases hres2 : resolvePair (withOrder env order) { σ with infra := infra } req with
    | error err =>
      left
      rw [Reconcile_of_resolve_error hres2]
    | ok pair =>
      obtain ⟨infraSvc2, hostedSvc2⟩ := pair
      have hh2 : hostedSvc2.ObjectMeta.Name = "" := by
        unfold resolvePair at hres hres2
        rw [GetCurrentNs_withOrder] at hres2
        by_cases horigin : req.Namespace ≠ GetCurrentNs env
        · rw [if_pos horigin] at hres hres2
          obtain ⟨hget, _⟩ := GetSvcsFromHostedReconclie_ok hres
          obtain ⟨hget2, _⟩ := GetSvcsFromHostedReconclie_ok hres2
          have hget2' : getOrZero (clientGet env.faults.hostedGet σ.hosted req) =
              .ok hostedSvc2 := hget2
          have hsame : hostedSvc2 = hostedSvc := by
            have := hget2'.symm.trans hget
            simpa using this
          rw [hsame]
          exact hh
        · rw [if_neg horigin] at hres hres2
          obtain ⟨hget, _⟩ := GetSvcsFromInfraReconclie_ok hres
          obtain ⟨hget2, hget2h⟩ := GetSvcsFromInfraReconclie_ok hres2
          obtain ⟨_, hns, hnm⟩ := clientGet_ok_mem (getOrZero_ok_named hget hi)
          have hzero : infraSvc2 = {} := by
            rcases getOrZero_ok hget2 with hfound | hzero
            · exfalso
              obtain ⟨hmem, hns2, hnm2⟩ := clientGet_ok_mem hfound
              have hmem2 : infraSvc2 ∈ σ.infra.filter (fun s => !sameKey (keyOf infraSvc) s) := by
                rw [← hinfra]
                exact hmem
              have hnot := (List.mem_filter.mp hmem2).2
              simp [sameKey, keyOf, hns, hnm, hns2, hnm2] at hnot
            · exact hzero
          rw [hzero] at hget2h
          rcases getOrZero_ok hget2h with hfound | hz
          · exact (clientGet_ok_mem hfound).2.2
          · rw [hz]
      rcases Reconcile_calls_of_hosted_missing hres2 hh2 with hc | hc
      · exact Or.inl hc
      · exact Or.inr ⟨_, hc⟩

/-- C2: for a hosted service with at least one port, `GetInfraSvcFromHostedSvc`
returns a mirror with generateName `<hosted name>-`, an empty name, the
namespace `GetCurrentNs`, exactly the two source annotations, type
LoadBalancer, the single cluster-name selector, and exactly one port that
copies name, protocol, appProtocol and port of the hosted service's first port
and whose targetPort is the integer nodePort of that port. -/
theorem GetInfraSvcFromHostedSvc_composes_mirror (env : Env) (hostedSvc : Service)
    (clusterGenName : String) (port0 : ServicePort) (rest : List ServicePort)
    (hports : hostedSvc.Spec.Ports = port0 :: rest) :
    ∃ m p, GetInfraSvcFromHostedSvc env hostedSvc clusterGenName = .val m ∧
      m.ObjectMeta.GenerateName = hostedSvc.ObjectMeta.Name ++ "-" ∧
      m.ObjectMeta.Name = "" ∧
      m.ObjectMeta.Namespace = GetCurrentNs env ∧
      m.ObjectMeta.Annotations =
        [( SyncSvcNameAnnotation, hostedSvc.ObjectMeta.Name),
         ( SyncSvcNamespaceAnnotation, hostedSvc.ObjectMeta.Namespace)] ∧
      index m.ObjectMeta.Annotations SyncSvcNameAnnotation = hostedSvc.ObjectMeta.Name ∧
      index m.ObjectMeta.Annotations SyncSvcNamespaceAnnotation = hostedSvc.ObjectMeta.Namespace ∧
      m.Spec.ServiceType = "LoadBalancer" ∧
      m.Spec.Selector = [(ClusterNameLabel, clusterGenName)] ∧
      m.Spec.Ports = [p] ∧
      p.Name = port0.Name ∧ p.Protocol = port0.Protocol ∧
      p.AppProtocol = port0.AppProtocol ∧ p.Port = port0.Port ∧
      p.TargetPort = { Kind := 0, IntVal := port0.NodePort, StrVal := "" } := by
  have hne : ( SyncSvcNamespaceAnnotation == SyncSvcNameAnnotation) = false := by decide
  simp only [GetInfraSvcFromHostedSvc, hports]
  refine ⟨_, _, rfl, rfl, rfl, rfl, rfl, ?_, ?_, rfl, rfl, rfl, rfl, rfl, rfl, rfl, rfl⟩
  · simp [index, List.lookup]
  · simp [index, List.lookup, hne]

/-- C2, scenario S1: `app/web` with port 80 and nodePort 31080, mirrored in
`infra-a` for cluster `infra-a-cluster`. -/
theorem GetInfraSvcFromHostedSvc_composes_mirror_witness :
    hostedWeb.Spec.Ports = webPort :: [] ∧
    ∃ m p, GetInfraSvcFromHostedSvc envA hostedWeb "infra-a-cluster" = .val m ∧
      m.ObjectMeta.GenerateName = hostedWeb.ObjectMeta.Name ++ "-" ∧
      m.ObjectMeta.Name = "" ∧
      m.ObjectMeta.Namespace = GetCurrentNs envA ∧
      m.ObjectMeta.Annotations =
        [( SyncSvcNameAnnotation, hostedWeb.ObjectMeta.Name),
         ( SyncSvcNamespaceAnnotation, hostedWeb.ObjectMeta.Namespace)] ∧
      index m.ObjectMeta.Annotations SyncSvcNameAnnotation = hostedWeb.ObjectMeta.Name ∧
      index m.ObjectMeta.Annotations SyncSvcNamespaceAnnotation = hostedWeb.ObjectMeta.Namespace ∧
      m.Spec.ServiceType = "LoadBalancer" ∧
      m.Spec.Selector = [(ClusterNameLabel, "infra-a-cluster")] ∧
      m.Spec.Ports = [p] ∧
      p.Name = webPort.Name ∧ p.Protocol = webPort.Protocol ∧
      p.AppProtocol = webPort.AppProtocol ∧ p.Port = webPort.Port ∧
      p.TargetPort = { Kind := 0, IntVal := webPort.NodePort, StrVal := "" } :=
  ⟨rfl, GetInfraSvcFromHostedSvc_composes_mirror envA hostedWeb "infra-a-cluster" webPort [] rfl⟩

/-- C3: `ReconcileNormal` on a hosted service with a non-empty ingress submits
no status update, leaves the API state as it is and succeeds; on a hosted
service with an empty ingress it submits exactly one status update, for the
hosted service with the mirror's ingress and its metadata and spec unchanged,
and when the update is accepted the stored hosted services are the result of
that update. -/
theorem ReconcileNormal_propagates_status (env : Env) (σ : ApiState)
    (infraSvc hostedSvc : Service) :
    (hostedSvc.Status.LoadBalancer.Ingress ≠ [] →
      ReconcileNormal env σ infraSvc hostedSvc = { result := .ret (), state := σ, calls := [] }) ∧
    (hostedSvc.Status.LoadBalancer.Ingress = [] →
      ∃ upd, (ReconcileNormal env σ infraSvc hostedSvc).calls = [.hostedStatusUpdate upd] ∧
        upd.Status.LoadBalancer.Ingress = infraSvc.Status.LoadBalancer.Ingress ∧
        upd.ObjectMeta = hostedSvc.ObjectMeta ∧ upd.Spec = hostedSvc.Spec ∧
        (∀ hosted, clientStatusUpdate env.faults.hostedStatusUpdate σ.hosted upd = .ok hosted →
          ReconcileNormal env σ infraSvc hostedSvc =
            { result := .ret (), state := { σ with hosted := hosted },
              calls := [.hostedStatusUpdate upd] }) ∧
        (∀ err, clientStatusUpdate env.faults.hostedStatusUpdate σ.hosted upd = .error err →
          ReconcileNormal env σ infraSvc hostedSvc =
            { result := .fail err, state := σ, calls := [.hostedStatusUpdate upd] })) := by
  constructor
  · intro hne
    have hlen : hostedSvc.Status.LoadBalancer.Ingress.length ≠ 0 := by
      simpa [List.length_eq_zero] using hne
    simp [ReconcileNormal, hlen]
  · intro hnil
    refine ⟨withIngress hostedSvc infraSvc.Status.LoadBalancer.Ingress, ?_, rfl, rfl, rfl, ?_, ?_⟩
    · simp only [ReconcileNormal, hnil, List.length_nil, ne_eq, not_true_eq_false, if_false]
      split <;> rfl
    · intro hosted hok
      simp only [ReconcileNormal, hnil, List.length_nil, ne_eq, not_true_eq_false, if_false, hok]
    · intro err herr
      simp only [ReconcileNormal, hnil, List.length_nil, ne_eq, not_true_eq_false, if_false, herr]

/-- C3, scenarios S3 and S2: hosted `app/web` with ingress `10.0.0.9` stays as
it is when the mirror reports `10.0.0.5`; hosted `app/web` without an ingress
gets `10.0.0.5`. -/
theorem ReconcileNormal_propagates_status_witness :
    (hostedWebSticky.Status.LoadBalancer.Ingress ≠ [] ∧
      ReconcileNormal envA { infra := [mirrorWebReady], hosted := [hostedWebSticky] }
          mirrorWebReady hostedWebSticky =
        { result := .ret (),
          state := { infra := [mirrorWebReady], hosted := [hostedWebSticky] }, calls := [] }) ∧
    (hostedWeb.Status.LoadBalancer.Ingress = [] ∧
      ∃ upd, (ReconcileNormal envA { infra := [mirrorWebReady], hosted := [hostedWeb] }
          mirrorWebReady hostedWeb).calls = [.hostedStatusUpdate upd] ∧
        upd.Status.LoadBalancer.Ingress = [{ IP := "10.0.0.5" }] ∧
        upd.ObjectMeta = hostedWeb.ObjectMeta ∧ upd.Spec = hostedWeb.Spec) ∧
    (ReconcileNormal envA { infra := [mirrorWebReady], hosted := [hostedWeb] }
        mirrorWebReady hostedWeb).state.hosted = [withIngress hostedWeb [{ IP := "10.0.0.5" }]] :=
  ⟨⟨by decide,
    (ReconcileNormal_propagates_status envA
      { infra := [mirrorWebReady], hosted := [hostedWebSticky] }
      mirrorWebReady hostedWebSticky).1 (by decide)⟩,
   ⟨rfl,
    let ⟨upd, hcalls, hing, hmeta, hspec, _⟩ :=
      (ReconcileNormal_propagates_status envA
        { infra := [mirrorWebReady], hosted := [hostedWeb] } mirrorWebReady hostedWeb).2 rfl
    ⟨upd, hcalls, hing, hmeta, hspec⟩⟩,
   by decide⟩

/-- C4: `lbFilterFunc` accepts a service exactly when its type is LoadBalancer
and its name is not `kube-apiserver`; the create, delete and generic predicates
of `LbFilters` apply it to the event's object and the update predicate to the
new object; so every event for a service of another type or named
`kube-apiserver` is rejected by its predicate and queues no request. -/
theorem LbFilters_accept_iff (svc : Service) :
    (lbFilterFunc svc = true ↔
      svc.Spec.ServiceType = "LoadBalancer" ∧ svc.ObjectMeta.Name ≠ "kube-apiserver") ∧
    (∀ e : CreateEvent, LbFilters.CreateFunc e = lbFilterFunc e.Object) ∧
    (∀ e : DeleteEvent, LbFilters.DeleteFunc e = lbFilterFunc e.Object) ∧
    (∀ e : UpdateEvent, LbFilters.UpdateFunc e = lbFilterFunc e.ObjectNew) ∧
    (∀ e : GenericEvent, LbFilters.GenericFunc e = lbFilterFunc e.Object) ∧
    (svc.Spec.ServiceType ≠ "LoadBalancer" ∨ svc.ObjectMeta.Name = "kube-apiserver" →
      LbFilters.CreateFunc { Object := svc } = false ∧
      LbFilters.DeleteFunc { Object := svc } = false ∧
      (∀ old, LbFilters.UpdateFunc { ObjectOld := old, ObjectNew := svc } = false) ∧
      LbFilters.GenericFunc { Object := svc } = false ∧
      requestsFor (.create { Object := svc }) = [] ∧
      requestsFor (.delete { Object := svc }) = [] ∧
      (∀ old, requestsFor (.update { ObjectOld := old, ObjectNew := svc }) = []) ∧
      requestsFor (.generic { Object := svc }) = []) := by
  have hiff : lbFilterFunc svc = true ↔
      svc.Spec.ServiceType = "LoadBalancer" ∧ svc.ObjectMeta.Name ≠ "kube-apiserver" := by
    unfold lbFilterFunc
    by_cases ht : svc.Spec.ServiceType = "LoadBalancer" <;>
      by_cases hn : svc.ObjectMeta.Name = "kube-apiserver" <;> simp [ht, hn]
  refine ⟨hiff, fun _ => rfl, fun _ => rfl, fun _ => rfl, fun _ => rfl, ?_⟩
  intro hrej
  have hfalse : lbFilterFunc svc = false := by
    cases hb : lbFilterFunc svc with
    | false => rfl
    | true =>
      obtain ⟨ht, hn⟩ := hiff.mp hb
      rcases hrej with h | h
      · exact absurd ht h
      · exact absurd h hn
  simp [requestsFor, LbFilters, hfalse]

/-- C4, scenarios S5 and S6: `kube-system/kube-apiserver` of type LoadBalancer
and a ClusterIP service queue no request. -/
theorem LbFilters_accept_iff_witness :
    ((hostedApiserver.Spec.ServiceType ≠ "LoadBalancer" ∨
        hostedApiserver.ObjectMeta.Name = "kube-apiserver") ∧
      requestsFor (.generic { Object := hostedApiserver }) = []) ∧
    ((hostedClusterIP.Spec.ServiceType ≠ "LoadBalancer" ∨
        hostedClusterIP.ObjectMeta.Name = "kube-apiserver") ∧
      requestsFor (.generic { Object := hostedClusterIP }) = []) ∧
    requestsFor (.generic { Object := hostedWeb }) = [reqWeb] :=
  ⟨⟨Or.inr rfl, ((LbFilters_accept_iff hostedApiserver).2.2.2.2.2 (Or.inr rfl)).2.2.2.2.2.2.2⟩,
   ⟨Or.inl (by decide),
    ((LbFilters_accept_iff hostedClusterIP).2.2.2.2.2 (Or.inl (by decide))).2.2.2.2.2.2.2⟩,
   by decide⟩

/-- C1 as stated fails: pair resolution succeeds with the mirror absent and the
hosted service `app/web` present, yet no create is issued, because the listing
of `Cluster` resources returns an error that `ReconcileMissingInfra` hands
back. -/
theorem Reconcile_create_skipped_when_cluster_list_fails :
    resolvePair envClusterListDown stateNoMirror reqWeb = .ok ({}, hostedWeb) ∧
    IsObjectMissing ({} : Service) = true ∧ IsObjectMissing hostedWeb = false ∧
    Reconcile envClusterListDown stateNoMirror reqWeb =
      { result := .fail (.other "timeout"), state := stateNoMirror, calls := [] } ∧
    ¬ ∃ mirror, (Reconcile envClusterListDown stateNoMirror reqWeb).calls =
      [.infraCreate mirror] := by
  refine ⟨rfl, by decide, by decide, by decide, ?_⟩
  rintro ⟨mirror, h⟩
  have hcalls : (Reconcile envClusterListDown stateNoMirror reqWeb).calls = [] := by decide
  rw [hcalls] at h
  cases h

/-- C1, amended: when pair resolution succeeds, `Reconcile` acts on presence
alone (present = non-empty name). Both absent: no request is issued, the state
is untouched, the result is success. Mirror absent, hosted present: it runs
`ReconcileMissingInfra`, which issues exactly one create of the composed
mirror when `GetClusterGenName` returns a name and the hosted service has a
port, and issues nothing and returns the error when `GetClusterGenName`
returns one. Mirror present, hosted absent: it issues exactly one delete of
that mirror. Both present: it is `ReconcileNormal` and nothing else. -/
theorem Reconcile_acts_on_presence (env : Env) (σ : ApiState) (req : Request)
    (infraSvc hostedSvc : Service)
    (hres : resolvePair env σ req = .ok (infraSvc, hostedSvc)) :
    (IsObjectMissing infraSvc = true ↔ infraSvc.ObjectMeta.Name = "") ∧
    (IsObjectMissing hostedSvc = true ↔ hostedSvc.ObjectMeta.Name = "") ∧
    (infraSvc.ObjectMeta.Name = "" → hostedSvc.ObjectMeta.Name = "" →
      Reconcile env σ req = { result := .ret (), state := σ, calls := [] }) ∧
    (infraSvc.ObjectMeta.Name = "" → hostedSvc.ObjectMeta.Name ≠ "" →
      Reconcile env σ req = ReconcileMissingInfra env σ hostedSvc ∧
      (∀ clusterGenName, GetClusterGenName env σ = .ret clusterGenName →
        hostedSvc.Spec.Ports ≠ [] →
        ∃ mirror, GetInfraSvcFromHostedSvc env hostedSvc clusterGenName = .val mirror ∧
          (Reconcile env σ req).calls = [.infraCreate mirror]) ∧
      (∀ err, GetClusterGenName env σ = .fail err →
        Reconcile env σ req = { result := .fail err, state := σ, calls := [] })) ∧
    (infraSvc.ObjectMeta.Name ≠ "" → hostedSvc.ObjectMeta.Name = "" →
      Reconcile env σ req = ReconcileMissingHosted env σ infraSvc ∧
      (Reconcile env σ req).calls = [.infraDelete infraSvc]) ∧
    (infraSvc.ObjectMeta.Name ≠ "" → hostedSvc.ObjectMeta.Name ≠ "" →
      Reconcile env σ req = ReconcileNormal env σ infraSvc hostedSvc) := by
  refine ⟨IsObjectMissing_iff _, IsObjectMissing_iff _, ?_, ?_, ?_, ?_⟩
  · exact fun hi hh => Reconcile_both_missing hres hi hh
  · intro hi hh
    have hrun := Reconcile_missing_infra hres hi hh
    refine ⟨hrun, ?_, ?_⟩
    · intro clusterGenName hname hports
      cases hp : hostedSvc.Spec.Ports with
      | nil => exact absurd hp hports
      | cons port0 rest =>
        have hmirror : ∃ mirror,
            GetInfraSvcFromHostedSvc env hostedSvc clusterGenName = .val mirror := by
          simp [GetInfraSvcFromHostedSvc, hp]
        obtain ⟨mirror, hmirror⟩ := hmirror
        refine ⟨mirror, hmirror, ?_⟩
        rw [hrun]
        cases hcreate : clientCreate env.faults.infraCreate env.suffix σ.infra mirror with
        | error err => simp [ReconcileMissingInfra, hname, hmirror, hcreate]
        | ok infra => simp [ReconcileMissingInfra, hname, hmirror, hcreate]
    · intro err hname
      rw [hrun]
      simp [ReconcileMissingInfra, hname]
  · intro hi hh
    have hrun := Reconcile_missing_hosted hres hi hh
    exact ⟨hrun, by rw [hrun]; exact (ReconcileMissingHosted_cases env σ infraSvc).1⟩
  · exact fun hi hh => Reconcile_both_present hres hi hh

/-- C1, amended, on scenario S1: hosted `app/web` without a mirror gets exactly
one create. -/
theorem Reconcile_acts_on_presence_witness :
    resolvePair envA stateNoMirror reqWeb = .ok ({}, hostedWeb) ∧
    ∃ mirror, GetInfraSvcFromHostedSvc envA hostedWeb "infra-a-cluster" = .val mirror ∧
      (Reconcile envA stateNoMirror reqWeb).calls = [.infraCreate mirror] :=
  ⟨rfl,
   ((Reconcile_acts_on_presence envA stateNoMirror reqWeb {} hostedWeb rfl).2.2.2.1
      (by decide) (by decide)).2.1 "infra-a-cluster" (by decide) (by decide)⟩

/-- C7 as stated fails: the mirror is already gone, the delete is answered
with NotFound, and `ReconcileMissingHosted` returns that error. -/
theorem ReconcileMissingHosted_returns_notFound :
    clientDelete envA.faults.infraDelete stateNoMirror.infra mirrorWeb = .error .notFound ∧
    ReconcileMissingHosted envA stateNoMirror mirrorWeb =
      { result := .fail .notFound, state := stateNoMirror, calls := [.infraDelete mirrorWeb] } ∧
    (ReconcileMissingHosted envA stateNoMirror mirrorWeb).result ≠ .ret () := by
  refine ⟨rfl, by decide, by decide⟩

/-- C7, amended: `ReconcileMissingHosted` issues one delete of the mirror and
returns what the delete returns: success exactly when the delete is accepted,
and every error of the delete, NotFound included, unchanged. -/
theorem ReconcileMissingHosted_returns_delete_answer (env : Env) (σ : ApiState)
    (infraSvc : Service) :
    (ReconcileMissingHosted env σ infraSvc).calls = [.infraDelete infraSvc] ∧
    (∀ infra, clientDelete env.faults.infraDelete σ.infra infraSvc = .ok infra →
      ReconcileMissingHosted env σ infraSvc =
        { result := .ret (), state := { σ with infra := infra },
          calls := [.infraDelete infraSvc] }) ∧
    (∀ err, clientDelete env.faults.infraDelete σ.infra infraSvc = .error err →
      ReconcileMissingHosted env σ infraSvc =
        { result := .fail err, state := σ, calls := [.infraDelete infraSvc] }) ∧
    ((ReconcileMissingHosted env σ infraSvc).result = .ret () ↔
      ∃ infra, clientDelete env.faults.infraDelete σ.infra infraSvc = .ok infra) := by
  refine ⟨(ReconcileMissingHosted_cases env σ infraSvc).1, ?_, ?_, ?_⟩
  · intro infra hdel
    simp [ReconcileMissingHosted, hdel]
  · intro err hdel
    simp [ReconcileMissingHosted, hdel]
  · cases hdel : clientDelete env.faults.infraDelete σ.infra infraSvc with
    | error err => simp [ReconcileMissingHosted, hdel]
    | ok infra => simp [ReconcileMissingHosted, hdel]

/-- C7, amended, on scenario S4: the mirror of a hosted service that is gone is
deleted; a second delete of it is answered NotFound and returned. -/
theorem ReconcileMissingHosted_returns_delete_answer_witness :
    (clientDelete envA.faults.infraDelete [mirrorWeb, mirrorApi] mirrorWeb = .ok [mirrorApi] ∧
      ReconcileMissingHosted envA { infra := [mirrorWeb, mirrorApi] } mirrorWeb =
        { result := .ret (), state := { infra := [mirrorApi] },
          calls := [.infraDelete mirrorWeb] }) ∧
    (clientDelete envA.faults.infraDelete [mirrorApi] mirrorWeb = .error .notFound ∧
      ReconcileMissingHosted envA { infra := [mirrorApi] } mirrorWeb =
        { result := .fail .notFound, state := { infra := [mirrorApi] },
          calls := [.infraDelete mirrorWeb] }) :=
  ⟨⟨rfl,
    (ReconcileMissingHosted_returns_delete_answer envA { infra := [mirrorWeb, mirrorApi] }
      mirrorWeb).2.1 [mirrorApi] rfl⟩,
   ⟨rfl,
    (ReconcileMissingHosted_returns_delete_answer envA { infra := [mirrorApi] }
      mirrorWeb).2.2.1 .notFound rfl⟩⟩

/-- C8, the failing input: the listing of `Cluster` resources succeeds with
zero items, and `GetClusterGenName` panics on `cluster.Items[0]` instead of
returning an error; the panic leaves `Reconcile` through `ReconcileMissingInfra`.
With one item it returns that item's name. -/
theorem GetClusterGenName_panics_on_zero_items :
    clientListClusters envA.faults.clusterList stateNoCluster.clusters (GetCurrentNs envA) =
      .ok [] ∧
    GetClusterGenName envA stateNoCluster = .panic indexOutOfRange ∧
    (∀ err, GetClusterGenName envA stateNoCluster ≠ .fail err) ∧
    Reconcile envA stateNoCluster reqWeb =
      { result := .panic indexOutOfRange, state := stateNoCluster, calls := [] } ∧
    GetClusterGenName envA stateNoMirror = .ret "infra-a-cluster" := by
  refine ⟨rfl, by decide, ?_, by decide, by decide⟩
  intro err h
  have hp : GetClusterGenName envA stateNoCluster = .panic indexOutOfRange := by decide
  rw [hp] at h
  cases h

/-- C9, the failing input: a hosted service without ports makes
`GetInfraSvcFromHostedSvc` panic on `hostedSvc.Spec.Ports[0]`, and the panic
leaves `ReconcileMissingInfra` and `Reconcile`; no mirror is created. -/
theorem ReconcileMissingInfra_panics_on_zero_ports :
    hostedWebNoPorts.Spec.Ports = [] ∧
    GetInfraSvcFromHostedSvc envA hostedWebNoPorts "infra-a-cluster" = .panic indexOutOfRange ∧
    ReconcileMissingInfra envA stateNoPorts hostedWebNoPorts =
      { result := .panic indexOutOfRange, state := stateNoPorts, calls := [] } ∧
    resolvePair envA stateNoPorts reqWeb = .ok ({}, hostedWebNoPorts) ∧
    Reconcile envA stateNoPorts reqWeb =
      { result := .panic indexOutOfRange, state := stateNoPorts, calls := [] } := by
  refine ⟨by decide, by decide, by decide, rfl, by decide⟩

/-- C10, the failing input: the mirror of `app/web` is listed before the mirror
of `app/api`; for the request `app/web`, `findSyncedSvc` returns the mirror of
`app/api`, the last item the loop variable held, whose source annotations are
not the request. -/
theorem findSyncedSvc_returns_last_listed :
    clientList envA.faults.infraList envA.listOrder stateTwoMirrors.infra =
      .ok [mirrorWeb, mirrorApi] ∧
    sourceOf mirrorWeb = reqWeb ∧ sourceOf mirrorApi ≠ reqWeb ∧
    findSyncedSvc envA stateTwoMirrors reqWeb = .ok mirrorApi ∧
    findSyncedSvc envA { infra := [mirrorApi, mirrorWeb] } reqWeb = .ok mirrorWeb ∧
    findSyncedSvc envA { infra := [mirrorApi] } reqWeb = .ok {} := by
  refine ⟨rfl, by decide, by decide, rfl, rfl, rfl⟩

/-- C5 as stated fails: hosted `app/web` and its mirror both have an empty
ingress; `Reconcile` succeeds and submits a status update that copies the
empty ingress, and a second `Reconcile` on the resulting state submits the
same status update again. -/
theorem Reconcile_twice_repeats_status_update :
    (Reconcile envA statePending reqWeb).result = .ret () ∧
    (Reconcile envA statePending reqWeb).calls = [.hostedStatusUpdate hostedWeb] ∧
    (Reconcile envA statePending reqWeb).state = statePending ∧
    (Reconcile envA (Reconcile envA statePending reqWeb).state reqWeb).calls =
      [.hostedStatusUpdate hostedWeb] ∧
    (Reconcile envA (Reconcile envA statePending reqWeb).state reqWeb).calls ≠ [] := by
  refine ⟨by decide, by decide, by decide, by decide, by decide⟩

/-- C5, amended: in an API state whose infra services are named, after a
successful `Reconcile` a second `Reconcile` of the same request on the state
the first one left, whatever order its List of infra services comes in, issues
no create; it issues no delete unless the first run issued one; it issues a
status update only for a hosted service it finds with an empty ingress; it
issues nothing at all when the first run issued no request or issued a status
update carrying a non-empty ingress; and it submits a status update for the
same hosted service again when the first run issued one carrying an empty
ingress. -/
theorem Reconcile_rerun_after_success (env : Env) (σ : ApiState) (req : Request)
    (order : ListOrder)
    (hnamed : ∀ s ∈ σ.infra, s.ObjectMeta.Name ≠ "")
    (hok : (Reconcile env σ req).result = .ret ()) :
    (∀ obj, Call.infraCreate obj ∉
      (Reconcile (withOrder env order) (Reconcile env σ req).state req).calls) ∧
    ((∀ obj, Call.infraDelete obj ∉ (Reconcile env σ req).calls) →
      ∀ obj, Call.infraDelete obj ∉
        (Reconcile (withOrder env order) (Reconcile env σ req).state req).calls) ∧
    (∀ upd, Call.hostedStatusUpdate upd ∈
        (Reconcile (withOrder env order) (Reconcile env σ req).state req).calls →
      ∃ infraSvc hostedSvc,
        resolvePair (withOrder env order) (Reconcile env σ req).state req =
          .ok (infraSvc, hostedSvc) ∧
        hostedSvc.Status.LoadBalancer.Ingress = [] ∧
        upd = withIngress hostedSvc infraSvc.Status.LoadBalancer.Ingress) ∧
    ((Reconcile env σ req).calls = [] →
      (Reconcile (withOrder env order) (Reconcile env σ req).state req).calls = []) ∧
    (∀ upd, (Reconcile env σ req).calls = [.hostedStatusUpdate upd] →
      (upd.Status.LoadBalancer.Ingress ≠ [] →
        (Reconcile (withOrder env order) (Reconcile env σ req).state req).calls = []) ∧
      (upd.Status.LoadBalancer.Ingress = [] →
        ∃ upd2, (Reconcile (withOrder env order) (Reconcile env σ req).state req).calls =
            [.hostedStatusUpdate upd2] ∧
          upd2.ObjectMeta = upd.ObjectMeta ∧ upd2.Spec = upd.Spec)) := by
  have hthree : (Reconcile (withOrder env order) (Reconcile env σ req).state req).calls = [] ∨
      (∃ upd, (Reconcile (withOrder env order) (Reconcile env σ req).state req).calls =
        [.hostedStatusUpdate upd]) ∨
      (∃ obj obj2, (Reconcile env σ req).calls = [.infraDelete obj] ∧
        (Reconcile (withOrder env order) (Reconcile env σ req).state req).calls =
          [.infraDelete obj2]) := by
    rcases Reconcile_cases env σ req with ⟨err, _, hrun⟩ | ⟨infraSvc, hostedSvc, hres, hcase⟩
    · rw [hrun] at hok
      cases hok
    · rcases hcase with ⟨_, _, hrun⟩ | ⟨hi, hh, hrun⟩ | ⟨hi, hh, hrun⟩ | ⟨hi, hh, hrun⟩
      · exact Or.inl (Reconcile_rerun_after_quiet order hnamed hok (by rw [hrun]))
      · rw [hrun] at hok ⊢
        rcases Reconcile_rerun_after_create order hnamed hres hi hh hok with hc | hc
        · exact Or.inl hc
        · exact Or.inr (Or.inl hc)
      · rw [hrun] at hok ⊢
        rcases Reconcile_rerun_after_delete order hres hi hh hok with hc | ⟨obj2, hc⟩
        · exact Or.inl hc
        · exact Or.inr (Or.inr
            ⟨infraSvc, obj2, (ReconcileMissingHosted_cases env σ infraSvc).1, hc⟩)
      · rcases ReconcileNormal_cases env σ infraSvc hostedSvc with ⟨_, hno⟩ | ⟨_, hc, _⟩
        · exact Or.inl (Reconcile_rerun_after_quiet order hnamed hok (by rw [hrun, hno]))
        · have hcalls : (Reconcile env σ req).calls =
              [.hostedStatusUpdate (withIngress hostedSvc infraSvc.Status.LoadBalancer.Ingress)] := by
            rw [hrun, hc]
          have hrerun := Reconcile_rerun_after_statusUpdate order hnamed hok hcalls
          by_cases hempty :
              (withIngress hostedSvc infraSvc.Status.LoadBalancer.Ingress).Status.LoadBalancer.Ingress
                = []
          · obtain ⟨upd2, hc2, _⟩ := hrerun.2 hempty
            exact Or.inr (Or.inl ⟨upd2, hc2⟩)
          · exact Or.inl (hrerun.1 hempty)
  refine ⟨?_, ?_, ?_, fun hcalls => Reconcile_rerun_after_quiet order hnamed hok hcalls,
    fun upd hcalls => Reconcile_rerun_after_statusUpdate order hnamed hok hcalls⟩
  · intro obj hmem
    rcases hthree with hc | ⟨upd, hc⟩ | ⟨_, obj2, _, hc⟩ <;> rw [hc] at hmem <;> simp at hmem
  · intro hnodel obj hmem
    rcases hthree with hc | ⟨upd, hc⟩ | ⟨obj1, _, hfirst, _⟩
    · rw [hc] at hmem
      simp at hmem
    · rw [hc] at hmem
      simp at hmem
    · exact hnodel obj1 (by rw [hfirst]; simp)
  · intro upd hmem
    have hcalls : (Reconcile (withOrder env order) (Reconcile env σ req).state req).calls =
        [.hostedStatusUpdate upd] := by
      rcases hthree with hc | ⟨upd2, hc⟩ | ⟨_, obj2, _, hc⟩
      · rw [hc] at hmem
        simp at hmem
      · rw [hc] at hmem ⊢
        simp only [List.mem_singleton, Call.hostedStatusUpdate.injEq] at hmem
        rw [hmem]
      · rw [hc] at hmem
        simp at hmem
    obtain ⟨infraSvc, hostedSvc, hres, _, _, hnil, hupd, _⟩ := Reconcile_of_statusUpdate hcalls
    exact ⟨infraSvc, hostedSvc, hres, hnil, hupd⟩

/-- C5, amended, with the second run listing in reverse order. On S2 the
mirror of `app/web` has the address `10.0.0.5`: the first run copies it to the
hosted service and the second run issues nothing. On S1 beside the mirror of
`app/api`: after the run that creates the mirror the second run issues no
create. With `kube-apiserver` stored before a mirror without an address: the
first run copies the empty ingress, and the second run, which lists
`kube-apiserver` last, submits a status update for `app/web` again. -/
theorem Reconcile_rerun_after_success_witness :
    ((∀ s ∈ ({ infra := [mirrorApi, mirrorWebReady], hosted := [hostedWeb] } : ApiState).infra,
        s.ObjectMeta.Name ≠ "") ∧
      (Reconcile envA { infra := [mirrorApi, mirrorWebReady], hosted := [hostedWeb] }
        reqWeb).result = .ret () ∧
      (Reconcile envA { infra := [mirrorApi, mirrorWebReady], hosted := [hostedWeb] }
        reqWeb).calls = [.hostedStatusUpdate (withIngress hostedWeb [{ IP := "10.0.0.5" }])] ∧
      (Reconcile (withOrder envA reversedOrder)
        (Reconcile envA { infra := [mirrorApi, mirrorWebReady], hosted := [hostedWeb] }
          reqWeb).state
        reqWeb).calls = []) ∧
    ((∀ s ∈ stateCrowded.infra, s.ObjectMeta.Name ≠ "") ∧
      (Reconcile envA stateCrowded reqWeb).result = .ret () ∧
      ∀ obj, Call.infraCreate obj ∉
        (Reconcile (withOrder envA reversedOrder)
          (Reconcile envA stateCrowded reqWeb).state reqWeb).calls) ∧
    ((∀ s ∈ statePendingBesideApiserver.infra, s.ObjectMeta.Name ≠ "") ∧
      (Reconcile envA statePendingBesideApiserver reqWeb).result = .ret () ∧
      (Reconcile envA statePendingBesideApiserver reqWeb).calls =
        [.hostedStatusUpdate hostedWeb] ∧
      hostedWeb.Status.LoadBalancer.Ingress = [] ∧
      (Reconcile (withOrder envA reversedOrder)
        (Reconcile envA statePendingBesideApiserver reqWeb).state reqWeb).calls =
          [.hostedStatusUpdate (withIngress hostedWeb [{ IP := "192.0.2.1" }])] ∧
      ∃ upd2, (Reconcile (withOrder envA reversedOrder)
          (Reconcile envA statePendingBesideApiserver reqWeb).state reqWeb).calls =
            [.hostedStatusUpdate upd2] ∧
        upd2.ObjectMeta = hostedWeb.ObjectMeta ∧ upd2.Spec = hostedWeb.Spec) :=
  ⟨⟨by decide, by decide, by decide,
    ((Reconcile_rerun_after_success envA
        { infra := [mirrorApi, mirrorWebReady], hosted := [hostedWeb] }
        reqWeb reversedOrder (by decide) (by decide)).2.2.2.2
      (withIngress hostedWeb [{ IP := "10.0.0.5" }]) (by decide)).1 (by decide)⟩,
   ⟨by decide, by decide,
    (Reconcile_rerun_after_success envA stateCrowded reqWeb reversedOrder
      (by decide) (by decide)).1⟩,
   ⟨by decide, by decide, by decide, by decide, by decide,
    ((Reconcile_rerun_after_success envA statePendingBesideApiserver reqWeb reversedOrder
        (by decide) (by decide)).2.2.2.2 hostedWeb (by decide)).2 (by decide)⟩⟩

/-- C6: `Reconcile` preserves mirror uniqueness. In an API state whose infra
services are named (the API server stores no object with an empty name), for
every request and whatever order the List call comes in: if no two infra
services of the agent's namespace that carry source annotations carry the
same pair, the same holds of the state after `Reconcile` (services without
source annotations are not compared); the same holds of any selection of the
infra services, and pair by pair (a pair carried by at most one mirror before
is carried by at most one after); and a create is issued only for a request of
hosted origin, for a mirror of the agent's namespace whose source annotations
are the request, when no listed infra service has the request as its source
annotations. -/
theorem Reconcile_preserves_mirror_uniqueness (env : Env) (σ : ApiState) (req : Request)
    (hnamed : ∀ s ∈ σ.infra, s.ObjectMeta.Name ≠ "") :
    (MirrorUnique env σ.infra → MirrorUnique env (Reconcile env σ req).state.infra) ∧
    (∀ counted : Service → Bool, UniqueAmong counted σ.infra →
      UniqueAmong counted (Reconcile env σ req).state.infra) ∧
    (∀ key, mirrorCount env σ.infra key ≤ 1 →
      mirrorCount env (Reconcile env σ req).state.infra key ≤ 1) ∧
    ∀ mirror, Call.infraCreate mirror ∈ (Reconcile env σ req).calls →
      req.Namespace ≠ GetCurrentNs env ∧ isMirror env mirror = true ∧ sourceOf mirror = req ∧
      (∀ s ∈ σ.infra, sourceOf s ≠ req) ∧
      ∀ s ∈ env.listOrder.arrange σ.infra, sourceOf s ≠ req := by
  have hgen : (∀ counted : Service → Bool, UniqueAmong counted σ.infra →
        UniqueAmong counted (Reconcile env σ req).state.infra) ∧
      (∀ key, mirrorCount env σ.infra key ≤ 1 →
        mirrorCount env (Reconcile env σ req).state.infra key ≤ 1) ∧
      ∀ mirror, Call.infraCreate mirror ∈ (Reconcile env σ req).calls →
        req.Namespace ≠ GetCurrentNs env ∧ isMirror env mirror = true ∧ sourceOf mirror = req ∧
        (∀ s ∈ σ.infra, sourceOf s ≠ req) ∧
        ∀ s ∈ env.listOrder.arrange σ.infra, sourceOf s ≠ req := by
    rcases Reconcile_cases env σ req with ⟨err, _, hrun⟩ | ⟨infraSvc, hostedSvc, hres, hcase⟩
    · rw [hrun]
      exact ⟨fun _ h => h, fun _ h => h, fun mirror hm => by simp at hm⟩
    · rcases hcase with ⟨_, _, hrun⟩ | ⟨hi, hh, hrun⟩ | ⟨_, _, hrun⟩ | ⟨_, _, hrun⟩
      · rw [hrun]
        exact ⟨fun _ h => h, fun _ h => h, fun mirror hm => by simp at hm⟩
      · rw [hrun]
        obtain ⟨horigin, hkey, hnone⟩ := resolvePair_missing_infra hnamed hres hi hh
        rcases ReconcileMissingInfra_cases env σ hostedSvc with
          ⟨hc, hstate, _⟩ | ⟨clusterGenName, composed, _, hval, hc, hstate⟩
        · rw [hc, hstate]
          exact ⟨fun _ h => h, fun _ h => h, fun mirror hm => by simp at hm⟩
        · obtain ⟨_, hsrc⟩ := GetInfraSvcFromHostedSvc_val hval
          have hmirror := GetInfraSvcFromHostedSvc_val_isMirror hval
          rw [hkey] at hsrc
          refine ⟨?_, ?_, ?_⟩
          · intro counted huniq
            rcases hstate with hsame | ⟨stored, _, hann, hst⟩
            · rw [hsame]
              exact huniq
            · rw [hst]
              have hstored : sourceOf stored = req := by
                rw [← hsrc]
                simp only [sourceOf, hann]
              exact UniqueAmong_append huniq (fun s hs => by rw [hstored]; exact hnone s hs)
          · intro key hcount
            rcases hstate with hsame | ⟨stored, _, hann, hst⟩
            · rw [hsame]
              exact hcount
            · rw [hst]
              have hstored : sourceOf stored = req := by
                rw [← hsrc]
                simp only [sourceOf, hann]
              exact mirrorCount_append_le (fun s hs => by rw [hstored]; exact hnone s hs) key hcount
          · intro mirror hm
            rw [hc] at hm
            simp only [List.mem_singleton, Call.infraCreate.injEq] at hm
            subst hm
            exact ⟨horigin, hmirror, hsrc, hnone,
              fun s hs => hnone s ((env.listOrder.perm σ.infra).mem_iff.mp hs)⟩
      · rw [hrun]
        obtain ⟨hc, hstate⟩ := ReconcileMissingHosted_cases env σ infraSvc
        refine ⟨?_, ?_, ?_⟩
        · intro counted huniq
          rcases hstate with hsame | ⟨keep, hst⟩
          · rw [hsame]
            exact huniq
          · rw [hst]
            exact UniqueAmong_filter keep huniq
        · intro key hcount
          rcases hstate with hsame | ⟨keep, hst⟩
          · rw [hsame]
            exact hcount
          · rw [hst]
            exact le_trans (mirrorCount_filter_le env σ.infra keep key) hcount
        · intro mirror hm
          rw [hc] at hm
          simp at hm
      · rw [hrun]
        obtain ⟨hinfra, hnocreate⟩ := ReconcileNormal_infra env σ infraSvc hostedSvc
        exact ⟨fun _ h => by rw [hinfra]; exact h, fun _ h => by rw [hinfra]; exact h,
          fun mirror hm => absurd hm (hnocreate mirror)⟩
  exact ⟨fun huniq => hgen.1 (isMirror env) huniq, hgen.1, hgen.2.1, hgen.2.2⟩

/-- C6 on scenario S1 in a namespace that also holds `kube-apiserver` and
`etcd-client`, two services without source annotations, and the mirror of
`app/api`: mirror uniqueness holds, the run creates the mirror of `app/web`,
and mirror uniqueness holds of the four services. -/
theorem Reconcile_preserves_mirror_uniqueness_witness :
    (∀ s ∈ stateCrowded.infra, s.ObjectMeta.Name ≠ "") ∧
    MirrorUnique envA stateCrowded.infra ∧
    (Reconcile envA stateCrowded reqWeb).state.infra =
      [infraApiserver, infraEtcd, mirrorApi, mirrorWeb] ∧
    MirrorUnique envA (Reconcile envA stateCrowded reqWeb).state.infra :=
  ⟨by decide, by decide, by decide,
   (Reconcile_preserves_mirror_uniqueness envA stateCrowded reqWeb (by decide)).1 (by decide)⟩

end SvcLbSync
